import Mathlib

/-!
Verification of the Cypha Bingo server core (`server.js`).

The development shallowly embeds the server's mutable game state and its
Socket.IO event handlers as pure Lean functions over an explicit
`ServerState`.  Randomness (JS `Math.random`) is modelled by an explicit
oracle `Rng` supplying, for each Fisher-Yates shuffle performed by a
handler, the random index chosen at each loop position.  JS `Map` and
plain-object dictionaries are modelled as insertion-ordered association
lists with JS `Map.set` / `delete` semantics.  Socket emissions are
collected in an `Output` list, each tagged with its destination
(a single socket or a broadcast to all).
-/

namespace CyphaBingo

/-! ### Decimal representation: `Nat.repr` is injective.

The name-disambiguation loop of the `join-game` handler builds candidate
names `name#2`, `name#3`, ... via string interpolation of a counter.  Its
termination and least-suffix property rest on distinct counters producing
distinct strings, i.e. injectivity of the decimal printer. -/

def charVal (c : Char) : Nat :=
  if c = '0' then 0 else if c = '1' then 1 else if c = '2' then 2 else if c = '3' then 3
  else if c = '4' then 4 else if c = '5' then 5 else if c = '6' then 6 else if c = '7' then 7
  else if c = '8' then 8 else 9

def decodeFrom (a : Nat) (ds : List Char) : Nat :=
  ds.foldl (fun acc c => acc * 10 + charVal c) a

lemma charVal_digitChar : ∀ d < 10, charVal (Nat.digitChar d) = d := by decide

lemma decodeFrom_cons (a : Nat) (c : Char) (ds : List Char) :
    decodeFrom a (c :: ds) = decodeFrom (a * 10 + charVal c) ds := rfl

lemma decodeFrom_toDigitsCore :
    ∀ (fuel n : Nat) (ds : List Char), n < fuel →
      decodeFrom 0 (Nat.toDigitsCore 10 fuel n ds) = decodeFrom n ds := by
  intro fuel
  induction fuel with
  | zero => intro n ds h; omega
  | succ fuel ih =>
    intro n ds h
    by_cases h10 : n / 10 = 0
    · have hn : n < 10 := by omega
      simp only [Nat.toDigitsCore, h10, if_true]
      rw [decodeFrom_cons]
      have hv := charVal_digitChar (n % 10) (by omega)
      congr 1
      omega
    · have hlt : n / 10 < fuel := by omega
      simp only [Nat.toDigitsCore, h10, if_false]
      rw [ih (n / 10) _ hlt, decodeFrom_cons]
      have hv := charVal_digitChar (n % 10) (by omega)
      congr 1
      omega

lemma decode_repr (n : Nat) : decodeFrom 0 (Nat.repr n).data = n := by
  show decodeFrom 0 (Nat.toDigitsCore 10 (n+1) n []).asString.data = n
  have hh : (Nat.toDigitsCore 10 (n+1) n []).asString.data = Nat.toDigitsCore 10 (n+1) n [] := rfl
  rw [hh]
  exact decodeFrom_toDigitsCore (n+1) n [] (Nat.lt_succ_self n)

lemma repr_data_inj {m n : Nat} (h : (Nat.repr m).data = (Nat.repr n).data) : m = n := by
  have h2 := congrArg (decodeFrom 0) h
  rwa [decode_repr, decode_repr] at h2

/-- JS string interpolation of the candidate name, from the source line
`finalName = ` + "`${name}#${suffix}`" + `;`. -/
def suffixName (name : String) (k : Nat) : String := name ++ "#" ++ Nat.repr k

lemma suffixName_inj (name : String) {j k : Nat} (h : suffixName name j = suffixName name k) :
    j = k := by
  have hd : name.data ++ '#' :: (Nat.repr j).data = name.data ++ '#' :: (Nat.repr k).data := by
    have h0 := congrArg String.data h
    simpa [suffixName, String.data_append, List.append_assoc] using h0
  have h2 := List.append_cancel_left hd
  have h3 : (Nat.repr j).data = (Nat.repr k).data := by injection h2
  exact repr_data_inj h3

/-! ### JS primitives: `trim`, association lists, array index/slice -/

/-- Character class removed by JS `String.prototype.trim` (the practically
occurring whitespace characters). -/
def jsWhitespace (c : Char) : Bool :=
  c == ' ' || c == '\t' || c == '\n' || c == '\r'

/-- Model of JS `String.prototype.trim`: strip whitespace at both ends. -/
def jsTrim (s : String) : String :=
  ⟨((s.data.dropWhile jsWhitespace).reverse.dropWhile jsWhitespace).reverse⟩

/-- Lookup in an insertion-ordered association list (JS `Map.get` /
object property read; `none` models `undefined`). -/
def alGet {β : Type} (l : List (String × β)) (k : String) : Option β :=
  match l with
  | [] => none
  | p :: rest => if p.1 = k then some p.2 else alGet rest k

/-- JS `Map.set` / object property write: replace in place when the key is
present (keeping its position), otherwise append at the end. -/
def alSet {β : Type} (l : List (String × β)) (k : String) (v : β) : List (String × β) :=
  match l with
  | [] => [(k, v)]
  | p :: rest => if p.1 = k then (p.1, v) :: rest else p :: alSet rest k v

/-- JS `Map.delete`: remove the entry with the given key (keys are unique
in every state the server builds, so removing all matches is the same). -/
def alDelete {β : Type} (l : List (String × β)) (k : String) : List (String × β) :=
  l.filter (fun p => p.1 ≠ k)

/-- JS `Array.from(map.values())`: values in insertion order. -/
def alValues {β : Type} (l : List (String × β)) : List β := l.map Prod.snd

/-- The keys of an association list, in insertion order. -/
def alKeys {β : Type} (l : List (String × β)) : List String := l.map Prod.fst

/-- JS array read `l[i]` for a possibly out-of-range index (`""` stands in
for `undefined`; the handler only indexes in range). -/
def getIdx (l : List String) (i : Int) : String := (l.get? i.toNat).getD ""

/-- JS `l.slice(0, e)` with a possibly negative end index. -/
def jsSlice0 (l : List String) (e : Int) : List String :=
  if e < 0 then l.take ((l.length : Int) + e).toNat else l.take e.toNat

/-! ### Data model -/

/-- A player's two bingo cards, `{ card1, card2 }` in the source. -/
structure CardSet where
  card1 : List String
  card2 : List String
deriving DecidableEq, Repr

/-- One game's card assignments: `playerName => { card1, card2 }`. -/
abbrev GameCards := List (String × CardSet)

/-- The top-level card store: `gameId => { playerName => cards }`. -/
abbrev CardsByGame := List (String × GameCards)

/-- The live lobby roster: `socket.id => playerName` (a JS `Map`). -/
abbrev Roster := List (String × String)

/-- The lowdb snapshot written by `saveDb`:
`{ currentGameId, playerCardsByGame }`. -/
structure Snapshot where
  dbGameId : Option String
  dbCards : CardsByGame
deriving DecidableEq, Repr

/-- The server's mutable module-level state (`server.js` lines 29-39)
together with the persisted snapshot. -/
structure ServerState where
  currentTheme : String
  callList : List String
  currentCallIndex : Int
  currentGameId : Option String
  calledHistory : List String
  currentAnnouncement : String
  playerCardsByGame : CardsByGame
  activePlayers : Roster
  snapshot : Snapshot
deriving DecidableEq, Repr

/-- State at process boot with an empty database. -/
def initState : ServerState :=
  { currentTheme := "", callList := [], currentCallIndex := -1, currentGameId := none,
    calledHistory := [], currentAnnouncement := "", playerCardsByGame := [],
    activePlayers := [], snapshot := ⟨none, []⟩ }

/-- Doubly-indexed card lookup, `playerCardsByGame[gid][pname]`. -/
def lookupCards (m : CardsByGame) (gid pname : String) : Option CardSet :=
  match alGet m gid with
  | some g => alGet g pname
  | none => none

/-- Destination of an emission: one socket (`socket.emit`) or everyone
(`io.emit`). -/
inductive Target where
  | only (sid : String)
  | all
deriving DecidableEq, Repr

/-- The server-to-client events the modelled handlers emit. -/
inductive SEvent where
  | joinFailed (reason : String)
  | nameDisambiguated (name : String)
  | playerList (names : List String)
  | callUpdate (items : List String)
  | joinAccepted (name : String)
  | gameInfo (gameId : Option String) (theme : String)
  | generateCard (cards : CardSet)
  | newCall (item : String)
  | broadcastSong (item : String)
  | playerCount (n : Nat)
  | bingoPattern (p : String)
  | bingoAlert (text : String)
  | announcementEvt (text : String)
  | previewSongEvt (item : String)
  | clearBigscreen
deriving DecidableEq, Repr

/-- A handler's collected emissions, in order. -/
abbrev Output := List (Target × SEvent)

/-- Randomness oracle: `rng i` drives the `i`-th shuffle a handler
performs; at loop index `j` Fisher-Yates swaps with `rng i j % (j+1)`,
modelling `Math.floor(Math.random() * (j+1))`. -/
abbrev Rng := Nat → Nat → Nat

/-! ### Shuffle/Draw engine (`shuffle`, lines 41-48) -/

/-- Swap two positions of a list (the JS destructuring swap). -/
def listSwap {α : Type} (l : List α) (i j : Nat) : List α :=
  match l.get? i, l.get? j with
  | some a, some b => (l.set i b).set j a
  | _, _ => l

/-- The Fisher-Yates loop, running the index from `i` down to `1`. -/
def shuffleGo {α : Type} (r : Nat → Nat) : Nat → List α → List α
  | 0, a => a
  | i+1, a => shuffleGo r i (listSwap a (i+1) (r (i+1) % (i+2)))

/-- Model of `shuffle(array)`: copy, then Fisher-Yates from the last
index down. -/
def shuffle {α : Type} (r : Nat → Nat) (l : List α) : List α :=
  shuffleGo r (l.length - 1) l

/-- A drawn card: `shuffle([...callList]).slice(0, 25)`. -/
def drawCard (r : Nat → Nat) (pool : List String) : List String :=
  (shuffle r pool).take 25

/-! ### Identity registry (`join-game` name resolution, lines 132-157) -/

/-- The `while` loop searching the lowest suffix `k` with `name#k` free,
unrolled with explicit fuel (`vals.length + 1` steps always suffice, see
`pickSuffixFuel_isSome`). -/
def pickSuffixFuel (vals : List String) (name : String) : Nat → Nat → Option Nat
  | 0, _ => none
  | fuel+1, k =>
    if suffixName name k ∈ vals then pickSuffixFuel vals name fuel (k+1) else some k

/-- Result of the suffix search starting, as in the source, at `2`.  The
default branch is dead code: the fuel is provably sufficient. -/
def resolveSuffix (vals : List String) (name : String) : Nat :=
  (pickSuffixFuel vals name (vals.length + 1) 2).getD 2

/-- Name resolution of `join-game` (lines 132-157): resume reclaim, then
non-resume disambiguation.  Returns the final name, the roster after any
eviction, and whether `name-disambiguated` fires. -/
def resolveName (roster : Roster) (sid name : String) (resume : Bool) :
    String × Roster × Bool :=
  let roster1 :=
    if resume then
      match roster.find? (fun p => p.2 == name) with
      | some p => if p.1 ≠ sid then alDelete roster p.1 else roster
      | none => roster
    else roster
  if resume then (name, roster1, false)
  else if ∃ p ∈ roster, p.2 = name ∧ p.1 ≠ sid then
    (suffixName name (resolveSuffix (alValues roster) name), roster1, true)
  else (name, roster1, false)

/-! ### Event handlers -/

/-- Payload of `join-game`: a bare string, an object (whose `name` field
may be absent or non-string, and whose `resume` field counts only when
`=== true`), or any other JS value. -/
inductive JoinPayload where
  | strPayload (s : String)
  | objPayload (name : Option String) (resume : Bool)
  | otherPayload
deriving DecidableEq, Repr

/-- Payload normalization at the top of the `join-game` handler
(lines 117-125). -/
def normalizeJoin : JoinPayload → String × Bool
  | .strPayload s => (jsTrim s, false)
  | .objPayload name r => ((name.map jsTrim).getD "", r)
  | .otherPayload => ("", false)

/-- The guard `currentGameId && currentTheme && callList.length > 0`
(lines 175 and 204), returning the game id when truthy. -/
def activeGame (s : ServerState) : Option String :=
  match s.currentGameId with
  | some gid => if gid ≠ "" ∧ s.currentTheme ≠ "" ∧ s.callList ≠ [] then some gid else none
  | none => none

/-- The statement `playerCardsByGame[gid] = playerCardsByGame[gid] || {}`. -/
def ensureGame (m : CardsByGame) (gid : String) : CardsByGame :=
  match alGet m gid with
  | some _ => m
  | none => alSet m gid []

/-- The lookup-or-create card block shared verbatim by `join-game`
(lines 176-188) and `request-cards` (lines 208-219): emit the stored set,
or draw, store, emit and persist a fresh one. -/
def provideCards (rng : Rng) (sid pname gid : String) (s : ServerState) :
    ServerState × Output :=
  let games1 := ensureGame s.playerCardsByGame gid
  let cardsForGame := (alGet games1 gid).getD []
  match alGet cardsForGame pname with
  | some cs =>
    ({ s with playerCardsByGame := games1 }, [(Target.only sid, SEvent.generateCard cs)])
  | none =>
    let cs : CardSet := ⟨drawCard (rng 0) s.callList, drawCard (rng 1) s.callList⟩
    let games2 := alSet games1 gid (alSet cardsForGame pname cs)
    let s1 := { s with playerCardsByGame := games2 }
    let s2 := { s1 with snapshot := ⟨s1.currentGameId, s1.playerCardsByGame⟩ }
    (s2, [(Target.only sid, SEvent.generateCard cs)])

/-- The final name a `join-game` call registers, lines 132-157. -/
def joinFinalName (s : ServerState) (sid : String) (payload : JoinPayload) : String :=
  (resolveName s.activePlayers sid (normalizeJoin payload).1 (normalizeJoin payload).2).1

/-- The roster after `activePlayers.set(socket.id, finalName)` (line 161),
including any resume eviction. -/
def joinRoster2 (s : ServerState) (sid : String) (payload : JoinPayload) : Roster :=
  alSet (resolveName s.activePlayers sid (normalizeJoin payload).1 (normalizeJoin payload).2).2.1
    sid (joinFinalName s sid payload)

/-- The emissions of `join-game` before the card block (lines 155-172):
optional `name-disambiguated`, the lobby broadcast, and the direct
catch-up events. -/
def joinPreOut (s : ServerState) (sid : String) (payload : JoinPayload) : Output :=
  (if (resolveName s.activePlayers sid (normalizeJoin payload).1 (normalizeJoin payload).2).2.2
    then [(Target.only sid, SEvent.nameDisambiguated (joinFinalName s sid payload))] else [])
  ++ [(Target.all, SEvent.playerList (alValues (joinRoster2 s sid payload))),
      (Target.only sid, SEvent.callUpdate (jsSlice0 s.callList (s.currentCallIndex + 1))),
      (Target.only sid, SEvent.joinAccepted (joinFinalName s sid payload)),
      (Target.only sid, SEvent.gameInfo s.currentGameId s.currentTheme)]

/-- The `join-game` handler (lines 116-190). -/
def handleJoin (rng : Rng) (sid : String) (payload : JoinPayload) (s : ServerState) :
    ServerState × Output :=
  if (normalizeJoin payload).1 = "" then
    (s, [(Target.only sid, SEvent.joinFailed "Invalid name")])
  else
    let s1 := { s with activePlayers := joinRoster2 s sid payload }
    match activeGame s1 with
    | some gid =>
      let pr := provideCards rng sid (joinFinalName s sid payload) gid s1
      (pr.1, joinPreOut s sid payload ++ pr.2)
    | none => (s1, joinPreOut s sid payload)

/-- Name resolution of `request-cards` (line 205): a string payload with a
non-empty trim wins, otherwise the roster entry of the socket. -/
def requestName (s : ServerState) (sid : String) (maybeName : Option String) : Option String :=
  match maybeName with
  | some m => if jsTrim m ≠ "" then some (jsTrim m) else alGet s.activePlayers sid
  | none => alGet s.activePlayers sid

/-- The `request-cards` handler (lines 203-220). -/
def handleRequestCards (rng : Rng) (sid : String) (maybeName : Option String)
    (s : ServerState) : ServerState × Output :=
  match activeGame s with
  | none => (s, [])
  | some gid =>
    match requestName s sid maybeName with
    | none => (s, [])
    | some pname =>
      if pname = "" then (s, [])
      else provideCards rng sid pname gid s

/-- Theme payload of `startgame` / `start-game`: `{ name, songs }`, either
field possibly absent. -/
structure Theme where
  name : Option String
  songs : Option (List String)
deriving DecidableEq, Repr

/-- The per-socket loop of `startGame` (lines 255-269): draw two cards for
every connected socket, store them when the socket has a lobby name, and
emit them to the socket.  `k` counts sockets for the randomness oracle. -/
def startGameLoop (rng : Rng) (songs : List String) (roster : Roster) :
    List String → Nat → GameCards → GameCards × Output
  | [], _, acc => (acc, [])
  | cid :: rest, k, acc =>
    let cs : CardSet :=
      ⟨(shuffle (rng (2*k+1)) songs).take 25, (shuffle (rng (2*k+2)) songs).take 25⟩
    let acc' :=
      match alGet roster cid with
      | some pname => alSet acc pname cs
      | none => acc
    let pr := startGameLoop rng songs roster rest (k+1) acc'
    (pr.1, (Target.only cid, SEvent.generateCard cs) :: pr.2)

/-- The `startGame` handler (lines 231-272).  `newGid` stands for the
fresh id `game_${Date.now()}`; `sockets` is the iteration order of
`io.sockets.sockets`.  The source deletes every key of
`playerCardsByGame` before seeding the new game's empty map. -/
def handleStartGame (rng : Rng) (newGid : String) (sockets : List String)
    (theme : Option Theme) (s : ServerState) : ServerState × Output :=
  let tname := (theme.bind Theme.name).getD ""
  let songs := (theme.bind Theme.songs).getD []
  let newCallList := shuffle (rng 0) songs
  let pr := startGameLoop rng songs s.activePlayers sockets 0 []
  let cardsMap : CardsByGame := [(newGid, pr.1)]
  let s' : ServerState :=
    { currentTheme := tname, callList := newCallList, currentCallIndex := -1,
      currentGameId := some newGid, calledHistory := [],
      currentAnnouncement := s.currentAnnouncement,
      playerCardsByGame := cardsMap, activePlayers := s.activePlayers,
      snapshot := ⟨some newGid, cardsMap⟩ }
  (s', [(Target.all, SEvent.callUpdate []), (Target.all, SEvent.gameInfo (some newGid) tname)]
        ++ pr.2)

/-- The `next-call` handler (lines 279-284). -/
def handleNextCall (s : ServerState) : ServerState × Output :=
  if s.currentCallIndex + 1 < (s.callList.length : Int) then
    ({ s with currentCallIndex := s.currentCallIndex + 1 },
     [(Target.all, SEvent.newCall (getIdx s.callList (s.currentCallIndex + 1)))])
  else (s, [])

/-- The `confirmSong` handler (lines 223-228). -/
def handleConfirmSong (title : String) (s : ServerState) : ServerState × Output :=
  ({ s with calledHistory := s.calledHistory ++ [title] },
   [(Target.all, SEvent.broadcastSong title), (Target.all, SEvent.newCall title)])

/-- The `announcement` handler (lines 110-113); `none` models a non-string
payload. -/
def handleAnnouncement (txt : Option String) (s : ServerState) : ServerState × Output :=
  let t := txt.getD ""
  ({ s with currentAnnouncement := t }, [(Target.all, SEvent.announcementEvt t)])

/-- The `disconnect` handler (lines 292-297); `clientsCount` is the
engine's connection count after the disconnect. -/
def handleDisconnect (sid : String) (clientsCount : Nat) (s : ServerState) :
    ServerState × Output :=
  let roster' := alDelete s.activePlayers sid
  ({ s with activePlayers := roster' },
   [(Target.all, SEvent.playerList (alValues roster')),
    (Target.all, SEvent.playerCount clientsCount)])

/-- The `pattern-change` handler (lines 193-195). -/
def handlePatternChange (p : String) (s : ServerState) : ServerState × Output :=
  (s, [(Target.all, SEvent.bingoPattern p)])

/-- The `previewSong` handler (lines 198-200). -/
def handlePreviewSong (sid title : String) (s : ServerState) : ServerState × Output :=
  (s, [(Target.only sid, SEvent.previewSongEvt title)])

/-- The `bingo-claim` handler (lines 287-289). -/
def handleBingoClaim (name : String) (s : ServerState) : ServerState × Output :=
  (s, [(Target.all, SEvent.bingoAlert (name ++ " says BINGO!"))])

/-- The `clear-songs` handler (lines 105-107). -/
def handleClearSongs (s : ServerState) : ServerState × Output :=
  (s, [(Target.all, SEvent.clearBigscreen)])

/-! ### Association-list lemmas -/

lemma alGet_nil {β : Type} (k : String) : alGet ([] : List (String × β)) k = none := rfl

lemma alGet_cons {β : Type} (p : String × β) (l : List (String × β)) (k : String) :
    alGet (p :: l) k = if p.1 = k then some p.2 else alGet l k := rfl

lemma alSet_cons {β : Type} (p : String × β) (l : List (String × β)) (k : String) (v : β) :
    alSet (p :: l) k v = if p.1 = k then (p.1, v) :: l else p :: alSet l k v := rfl

lemma alGet_alSet_self {β : Type} (l : List (String × β)) (k : String) (v : β) :
    alGet (alSet l k v) k = some v := by
  induction l with
  | nil => simp [alSet, alGet]
  | cons p rest ih =>
    rw [alSet_cons]
    by_cases h : p.1 = k
    · simp [alGet_cons, h]
    · simp [alGet_cons, h, ih]

lemma alGet_alSet_ne {β : Type} (l : List (String × β)) (k k' : String) (v : β)
    (h : k ≠ k') : alGet (alSet l k v) k' = alGet l k' := by
  induction l with
  | nil => simp [alSet, alGet_cons, alGet_nil, h]
  | cons p rest ih =>
    rw [alSet_cons]
    by_cases hp : p.1 = k
    · rw [if_pos hp, alGet_cons, alGet_cons]
      have hne : p.1 ≠ k' := by rw [hp]; exact h
      simp [hne]
    · rw [if_neg hp, alGet_cons, alGet_cons, ih]

lemma alGet_alSet_cases {β : Type} {l : List (String × β)} {k k' : String} {v w : β}
    (h : alGet (alSet l k v) k' = some w) :
    (k' = k ∧ w = v) ∨ alGet l k' = some w := by
  by_cases hk : k = k'
  · subst hk
    rw [alGet_alSet_self] at h
    exact Or.inl ⟨rfl, (Option.some.injEq _ _ ▸ h).symm⟩
  · rw [alGet_alSet_ne l k k' v hk] at h
    exact Or.inr h

lemma alGet_eq_some_mem {β : Type} {l : List (String × β)} {k : String} {v : β}
    (h : alGet l k = some v) : (k, v) ∈ l := by
  induction l with
  | nil => simp [alGet] at h
  | cons p rest ih =>
    obtain ⟨a, b⟩ := p
    rw [alGet_cons] at h
    by_cases hp : a = k
    · simp [hp] at h
      exact List.mem_cons.mpr (Or.inl (by rw [hp, h]))
    · simp [hp] at h
      exact List.mem_cons_of_mem _ (ih h)

lemma alGet_eq_none_forall {β : Type} {l : List (String × β)} {k : String}
    (h : alGet l k = none) : ∀ p ∈ l, p.1 ≠ k := by
  induction l with
  | nil => intro p hp; simp at hp
  | cons q rest ih =>
    rw [alGet_cons] at h
    by_cases hq : q.1 = k
    · simp [hq] at h
    · simp [hq] at h
      intro p hp
      rcases List.mem_cons.mp hp with h1 | h1
      · rw [h1]; exact hq
      · exact ih h p h1

lemma mem_alValues_of_alGet {β : Type} {l : List (String × β)} {k : String} {v : β}
    (h : alGet l k = some v) : v ∈ alValues l :=
  List.mem_map.mpr ⟨(k, v), alGet_eq_some_mem h, rfl⟩

lemma alKeys_alSet {β : Type} (l : List (String × β)) (k : String) (v : β) :
    alKeys (alSet l k v) = if (∃ p ∈ l, p.1 = k) then alKeys l else alKeys l ++ [k] := by
  induction l with
  | nil => simp [alSet, alKeys]
  | cons p rest ih =>
    rw [alSet_cons]
    by_cases hp : p.1 = k
    · rw [if_pos hp, if_pos ⟨p, List.mem_cons_self p rest, hp⟩]
      simp [alKeys]
    · rw [if_neg hp]
      by_cases hrest : ∃ q ∈ rest, q.1 = k
      · have hcons : ∃ q ∈ p :: rest, q.1 = k := by
          rcases hrest with ⟨q, hq, hqk⟩
          exact ⟨q, List.mem_cons_of_mem _ hq, hqk⟩
        rw [if_pos hcons, if_pos hrest] at *
        simp only [alKeys, List.map_cons] at ih ⊢
        rw [ih]
      · have hcons : ¬ ∃ q ∈ p :: rest, q.1 = k := by
          rintro ⟨q, hq, hqk⟩
          rcases List.mem_cons.mp hq with h1 | h1
          · exact hp (h1 ▸ hqk)
          · exact hrest ⟨q, h1, hqk⟩
        rw [if_neg hcons, if_neg hrest] at *
        simp only [alKeys, List.map_cons] at ih ⊢
        rw [ih]
        simp

lemma alKeys_alSet_nodup {β : Type} {l : List (String × β)} {k : String} {v : β}
    (h : (alKeys l).Nodup) : (alKeys (alSet l k v)).Nodup := by
  rw [alKeys_alSet]
  by_cases hc : ∃ p ∈ l, p.1 = k
  · rwa [if_pos hc]
  · rw [if_neg hc]
    have hk : k ∉ alKeys l := by
      intro hmem
      rcases List.mem_map.mp hmem with ⟨p, hp, hpk⟩
      exact hc ⟨p, hp, hpk⟩
    simpa [List.nodup_append] using ⟨h, hk⟩

lemma alValues_alSet {β : Type} (l : List (String × β)) (k : String) (v : β) :
    ∀ x ∈ alValues (alSet l k v), x = v ∨ x ∈ alValues l := by
  induction l with
  | nil => simp [alSet, alValues]
  | cons p rest ih =>
    rw [alSet_cons]
    by_cases hp : p.1 = k
    · simp only [if_pos hp, alValues, List.map_cons]
      intro x hx
      rcases List.mem_cons.mp hx with h1 | h1
      · exact Or.inl h1
      · exact Or.inr (List.mem_cons_of_mem _ h1)
    · simp only [if_neg hp, alValues, List.map_cons]
      intro x hx
      rcases List.mem_cons.mp hx with h1 | h1
      · exact Or.inr (List.mem_cons.mpr (Or.inl h1))
      · rcases ih x h1 with h2 | h2
        · exact Or.inl h2
        · exact Or.inr (List.mem_cons_of_mem _ h2)

lemma alValues_alSet_nodup {β : Type} {l : List (String × β)} {k : String} {v : β}
    (hkeys : (alKeys l).Nodup) (hvals : (alValues l).Nodup)
    (hfresh : ∀ p ∈ l, p.1 ≠ k → p.2 ≠ v) : (alValues (alSet l k v)).Nodup := by
  induction l with
  | nil => simp [alSet, alValues]
  | cons p rest ih =>
    rw [alSet_cons]
    by_cases hp : p.1 = k
    · simp only [if_pos hp, alValues, List.map_cons, List.nodup_cons]
      constructor
      · intro hmem
        rcases List.mem_map.mp hmem with ⟨q, hq, hqv⟩
        have hqk : q.1 ≠ k := by
          intro hqk
          have : p.1 ∈ alKeys rest := by
            rw [hp, ← hqk]
            exact List.mem_map.mpr ⟨q, hq, rfl⟩
          simp only [alKeys, List.map_cons, List.nodup_cons] at hkeys
          exact hkeys.1 (by simpa [alKeys] using this)
        exact hfresh q (List.mem_cons_of_mem _ hq) hqk hqv
      · simpa [alValues] using (by simpa [alValues] using hvals : ((p :: rest).map Prod.snd).Nodup).of_cons
    · simp only [if_neg hp, alValues, List.map_cons, List.nodup_cons]
      have hkeys' : (alKeys rest).Nodup := by
        simp only [alKeys, List.map_cons, List.nodup_cons] at hkeys
        exact hkeys.2
      have hvals' : (alValues rest).Nodup := by
        simp only [alValues, List.map_cons, List.nodup_cons] at hvals
        exact hvals.2
      have hfresh' : ∀ q ∈ rest, q.1 ≠ k → q.2 ≠ v :=
        fun q hq => hfresh q (List.mem_cons_of_mem _ hq)
      refine ⟨?_, by simpa [alValues] using ih hkeys' hvals' hfresh'⟩
      intro hmem
      rcases alValues_alSet rest k v p.2 (by simpa [alValues] using hmem) with h1 | h1
      · exact hfresh p (List.mem_cons_self _ _) hp h1
      · simp only [alValues, List.map_cons, List.nodup_cons] at hvals
        exact hvals.1 (by simpa [alValues] using h1)

lemma alDelete_sublist {β : Type} (l : List (String × β)) (k : String) :
    (alDelete l k).Sublist l := List.filter_sublist l

lemma alGet_alDelete_self {β : Type} (l : List (String × β)) (k : String) :
    alGet (alDelete l k) k = none := by
  induction l with
  | nil => rfl
  | cons p rest ih =>
    by_cases hp : p.1 = k
    · simp [alDelete, List.filter_cons, hp, decide_eq_true_eq] at ih ⊢
      simpa [alDelete] using ih
    · simp only [alDelete, List.filter_cons] at ih ⊢
      rw [if_pos (by simpa using hp)]
      rw [alGet_cons, if_neg hp]
      simpa [alDelete] using ih

lemma alGet_alDelete_ne {β : Type} (l : List (String × β)) (k k' : String) (h : k' ≠ k) :
    alGet (alDelete l k) k' = alGet l k' := by
  induction l with
  | nil => rfl
  | cons p rest ih =>
    by_cases hp : p.1 = k
    · simp only [alDelete, List.filter_cons] at ih ⊢
      rw [if_neg (by simpa using hp)]
      rw [alGet_cons, if_neg (by rw [hp]; exact fun hc => h hc.symm)]
      simpa [alDelete] using ih
    · simp only [alDelete, List.filter_cons] at ih ⊢
      rw [if_pos (by simpa using hp)]
      rw [alGet_cons, alGet_cons]
      by_cases hpk : p.1 = k'
      · simp [hpk]
      · simp only [if_neg hpk]
        simpa [alDelete] using ih

lemma mem_alDelete {β : Type} {l : List (String × β)} {k : String} {p : String × β}
    (h : p ∈ alDelete l k) : p ∈ l ∧ p.1 ≠ k := by
  have h2 := List.mem_filter.mp h
  exact ⟨h2.1, by simpa using h2.2⟩

lemma alValues_nodup_inj {β : Type} {l : List (String × β)}
    (h : (alValues l).Nodup) {p q : String × β} (hp : p ∈ l) (hq : q ∈ l)
    (hpq : p.2 = q.2) : p = q :=
  List.inj_on_of_nodup_map (by simpa [alValues] using h) hp hq hpq

/-! ### Shuffle lemmas -/

lemma listSwap_length {α : Type} (l : List α) (i j : Nat) :
    (listSwap l i j).length = l.length := by
  unfold listSwap
  rcases h1 : l.get? i with _ | a <;> rcases h2 : l.get? j with _ | b <;> simp

lemma shuffleGo_length {α : Type} (r : Nat → Nat) :
    ∀ (n : Nat) (l : List α), (shuffleGo r n l).length = l.length := by
  intro n
  induction n with
  | zero => intro l; rfl
  | succ n ih => intro l; rw [shuffleGo, ih, listSwap_length]

lemma shuffle_length {α : Type} (r : Nat → Nat) (l : List α) :
    (shuffle r l).length = l.length := shuffleGo_length r _ l

lemma drawCard_length (r : Nat → Nat) (pool : List String) :
    (drawCard r pool).length = min 25 pool.length := by
  rw [drawCard, List.length_take, shuffle_length]

/-! ### Suffix-search lemmas -/

lemma pickSuffixFuel_some (vals : List String) (name : String) :
    ∀ (fuel k r : Nat), pickSuffixFuel vals name fuel k = some r →
      k ≤ r ∧ suffixName name r ∉ vals ∧ ∀ j, k ≤ j → j < r → suffixName name j ∈ vals := by
  intro fuel
  induction fuel with
  | zero => intro k r h; simp [pickSuffixFuel] at h
  | succ fuel ih =>
    intro k r h
    rw [pickSuffixFuel] at h
    by_cases hmem : suffixName name k ∈ vals
    · rw [if_pos hmem] at h
      obtain ⟨h1, h2, h3⟩ := ih (k+1) r h
      refine ⟨by omega, h2, ?_⟩
      intro j hj1 hj2
      by_cases hjk : j = k
      · rwa [hjk]
      · exact h3 j (by omega) hj2
    · rw [if_neg hmem] at h
      have hr : r = k := by
        have := Option.some.injEq k r ▸ h
        simp at h
        omega
      subst hr
      exact ⟨le_refl _, hmem, fun j hj1 hj2 => by omega⟩

lemma pickSuffixFuel_none (vals : List String) (name : String) :
    ∀ (fuel k : Nat), pickSuffixFuel vals name fuel k = none →
      ∀ j < fuel, suffixName name (k + j) ∈ vals := by
  intro fuel
  induction fuel with
  | zero => intro k h j hj; omega
  | succ fuel ih =>
    intro k h j hj
    rw [pickSuffixFuel] at h
    by_cases hmem : suffixName name k ∈ vals
    · rw [if_pos hmem] at h
      rcases Nat.eq_zero_or_pos j with hj0 | hj0
      · simpa [hj0] using hmem
      · have := ih (k+1) h (j-1) (by omega)
        have harr : k + 1 + (j - 1) = k + j := by omega
        rwa [harr] at this
    · rw [if_neg hmem] at h
      simp at h

lemma pickSuffixFuel_isSome (vals : List String) (name : String) :
    (pickSuffixFuel vals name (vals.length + 1) 2).isSome := by
  cases h : pickSuffixFuel vals name (vals.length + 1) 2 with
  | some r => rfl
  | none =>
    exfalso
    have hall := pickSuffixFuel_none vals name (vals.length + 1) 2 h
    have hinj : Function.Injective (fun j : Nat => suffixName name (2 + j)) := by
      intro a b hab
      have := suffixName_inj name hab
      omega
    have hnd : ((List.range (vals.length + 1)).map
        (fun j => suffixName name (2 + j))).Nodup :=
      (List.nodup_range _).map hinj
    have hsub : ((List.range (vals.length + 1)).map
        (fun j => suffixName name (2 + j))) ⊆ vals := by
      intro x hx
      rcases List.mem_map.mp hx with ⟨j, hj, hjx⟩
      rw [← hjx]
      exact hall j (List.mem_range.mp hj)
    have hlen := (hnd.subperm hsub).length_le
    simp at hlen

lemma resolveSuffix_spec (vals : List String) (name : String) :
    2 ≤ resolveSuffix vals name ∧
    suffixName name (resolveSuffix vals name) ∉ vals ∧
    ∀ j, 2 ≤ j → j < resolveSuffix vals name → suffixName name j ∈ vals := by
  obtain ⟨r, hr⟩ := Option.isSome_iff_exists.mp (pickSuffixFuel_isSome vals name)
  have : resolveSuffix vals name = r := by rw [resolveSuffix, hr]; rfl
  rw [this]
  exact pickSuffixFuel_some vals name _ 2 r hr

/-! ### Name-resolution lemmas -/

lemma resolveName_resume (roster : Roster) (sid name : String) :
    resolveName roster sid name true =
      (name,
       (match roster.find? (fun p => p.2 == name) with
        | some p => if p.1 ≠ sid then alDelete roster p.1 else roster
        | none => roster),
       false) := by
  unfold resolveName
  simp

lemma resolveName_nonresume_roster (roster : Roster) (sid name : String) :
    (resolveName roster sid name false).2.1 = roster := by
  unfold resolveName
  by_cases h : ∃ p ∈ roster, p.2 = name ∧ p.1 ≠ sid <;> simp [h]

lemma resolveName_nonresume_taken (roster : Roster) (sid name : String)
    (h : ∃ p ∈ roster, p.2 = name ∧ p.1 ≠ sid) :
    resolveName roster sid name false =
      (suffixName name (resolveSuffix (alValues roster) name), roster, true) := by
  unfold resolveName
  simp [h]

lemma resolveName_nonresume_free (roster : Roster) (sid name : String)
    (h : ¬ ∃ p ∈ roster, p.2 = name ∧ p.1 ≠ sid) :
    resolveName roster sid name false = (name, roster, false) := by
  unfold resolveName
  simp [h]

lemma resolveName_roster_cases (roster : Roster) (sid name : String) (resume : Bool) :
    (resolveName roster sid name resume).2.1 = roster ∨
    ∃ x, (resolveName roster sid name resume).2.1 = alDelete roster x := by
  cases resume with
  | false => exact Or.inl (resolveName_nonresume_roster roster sid name)
  | true =>
    rw [resolveName_resume]
    cases hf : roster.find? (fun p => p.2 == name) with
    | none => exact Or.inl rfl
    | some p =>
      by_cases hp : p.1 ≠ sid
      · exact Or.inr ⟨p.1, by simp [hp]⟩
      · exact Or.inl (by simp [hp])

/-- The resolved final name is fresh among roster entries of other
sockets: registering it cannot create a duplicate display name. -/
lemma resolveName_fresh (roster : Roster) (sid name : String) (resume : Bool)
    (hvals : (alValues roster).Nodup) :
    ∀ p ∈ (resolveName roster sid name resume).2.1, p.1 ≠ sid →
      p.2 ≠ (resolveName roster sid name resume).1 := by
  cases resume with
  | false =>
    rw [resolveName_nonresume_roster]
    by_cases h : ∃ p ∈ roster, p.2 = name ∧ p.1 ≠ sid
    · rw [resolveName_nonresume_taken roster sid name h]
      intro p hp _ hcontra
      have hmem : p.2 ∈ alValues roster := List.mem_map.mpr ⟨p, hp, rfl⟩
      rw [hcontra] at hmem
      exact (resolveSuffix_spec (alValues roster) name).2.1 hmem
    · rw [resolveName_nonresume_free roster sid name h]
      intro p hp hpsid hcontra
      exact h ⟨p, hp, hcontra, hpsid⟩
  | true =>
    rw [resolveName_resume]
    cases hf : roster.find? (fun p => p.2 == name) with
    | none =>
      intro p hp _ hcontra
      have := List.find?_eq_none.mp hf p hp
      simp at this
      exact this hcontra
    | some p0 =>
      have hp0name : p0.2 = name := by
        have := List.find?_some hf
        simpa using this
      have hp0mem : p0 ∈ roster := List.mem_of_find?_eq_some hf
      by_cases hp0 : p0.1 ≠ sid
      · simp only [if_pos hp0]
        intro p hp _ hcontra
        obtain ⟨hpro, hpne⟩ := mem_alDelete hp
        have : p = p0 := alValues_nodup_inj hvals hpro hp0mem (hcontra.trans hp0name.symm)
        exact hpne (by rw [this])
      · simp only [if_neg hp0]
        intro p hp hpsid hcontra
        have : p = p0 := alValues_nodup_inj hvals hp hp0mem (hcontra.trans hp0name.symm)
        rw [this] at hpsid
        simp at hp0
        exact hpsid hp0

/-! ### Card-block lemmas -/

lemma ensureGame_alGet (m : CardsByGame) (gid : String) :
    alGet (ensureGame m gid) gid = some ((alGet m gid).getD []) := by
  unfold ensureGame
  cases h : alGet m gid with
  | some g => simp [h]
  | none => simp [h, alGet_alSet_self]

lemma ensureGame_alGet_ne (m : CardsByGame) (gid gid' : String) (h : gid' ≠ gid) :
    alGet (ensureGame m gid) gid' = alGet m gid' := by
  unfold ensureGame
  cases hg : alGet m gid with
  | some g => rfl
  | none => exact alGet_alSet_ne m gid gid' [] (fun hc => h hc.symm)

lemma lookupCards_ensureGame (m : CardsByGame) (gid gid' pname : String) :
    lookupCards (ensureGame m gid) gid' pname = lookupCards m gid' pname := by
  unfold lookupCards
  by_cases h : gid' = gid
  · subst h
    rw [ensureGame_alGet]
    cases hg : alGet m gid' with
    | some g => simp
    | none => simp [alGet]
  · rw [ensureGame_alGet_ne m gid gid' h]

lemma provideCards_stored {s : ServerState} {gid pname : String} {cs : CardSet}
    (h : lookupCards s.playerCardsByGame gid pname = some cs) (rng : Rng) (sid : String) :
    provideCards rng sid pname gid s = (s, [(Target.only sid, SEvent.generateCard cs)]) := by
  unfold lookupCards at h
  cases hg : alGet s.playerCardsByGame gid with
  | none => rw [hg] at h; simp at h
  | some g =>
    rw [hg] at h
    simp only at h
    have he : ensureGame s.playerCardsByGame gid = s.playerCardsByGame := by
      unfold ensureGame; rw [hg]
    simp only [provideCards, he, hg, Option.getD_some, h]

lemma provideCards_fresh {s : ServerState} {gid pname : String}
    (h : lookupCards s.playerCardsByGame gid pname = none) (rng : Rng) (sid : String) :
    provideCards rng sid pname gid s =
      ({ s with
          playerCardsByGame := alSet (ensureGame s.playerCardsByGame gid) gid
            (alSet ((alGet (ensureGame s.playerCardsByGame gid) gid).getD []) pname
              ⟨drawCard (rng 0) s.callList, drawCard (rng 1) s.callList⟩),
          snapshot := ⟨s.currentGameId,
            alSet (ensureGame s.playerCardsByGame gid) gid
              (alSet ((alGet (ensureGame s.playerCardsByGame gid) gid).getD []) pname
                ⟨drawCard (rng 0) s.callList, drawCard (rng 1) s.callList⟩)⟩ },
       [(Target.only sid, SEvent.generateCard
          ⟨drawCard (rng 0) s.callList, drawCard (rng 1) s.callList⟩)]) := by
  unfold lookupCards at h
  cases hg : alGet s.playerCardsByGame gid with
  | none =>
    have hget : (alGet (ensureGame s.playerCardsByGame gid) gid).getD [] = ([] : GameCards) := by
      rw [ensureGame_alGet, hg]
      rfl
    simp only [provideCards, hget, alGet_nil]
  | some g =>
    rw [hg] at h
    simp only at h
    have hget : (alGet (ensureGame s.playerCardsByGame gid) gid).getD [] = g := by
      rw [ensureGame_alGet, hg]
      rfl
    simp only [provideCards, hget, h]

/-- Delivery specification of the shared card block: exactly one
`generateCard` goes to the requesting socket, it equals the set stored
afterwards, a previously stored set is returned unchanged, and a missing
set is freshly drawn from the current call list. -/
lemma provideCards_spec (rng : Rng) (sid pname gid : String) (s : ServerState) :
    ∃ cs, (provideCards rng sid pname gid s).2 = [(Target.only sid, SEvent.generateCard cs)] ∧
      lookupCards (provideCards rng sid pname gid s).1.playerCardsByGame gid pname = some cs ∧
      (∀ cs0, lookupCards s.playerCardsByGame gid pname = some cs0 → cs = cs0) ∧
      (lookupCards s.playerCardsByGame gid pname = none →
        cs = ⟨drawCard (rng 0) s.callList, drawCard (rng 1) s.callList⟩) := by
  cases h : lookupCards s.playerCardsByGame gid pname with
  | some cs0 =>
    refine ⟨cs0, ?_, ?_, ?_, ?_⟩
    · rw [provideCards_stored h]
    · rw [provideCards_stored h]
      exact h
    · intro cs1 h1
      exact Option.some.inj h1
    · intro h1
      cases h1
  | none =>
    refine ⟨⟨drawCard (rng 0) s.callList, drawCard (rng 1) s.callList⟩, ?_, ?_, ?_, ?_⟩
    · rw [provideCards_fresh h]
    · rw [provideCards_fresh h]
      simp [lookupCards, alGet_alSet_self]
    · intro cs1 h1
      cases h1
    · intro _
      rfl

/-- The card block touches only the card store and the snapshot. -/
lemma provideCards_fields (rng : Rng) (sid pname gid : String) (s : ServerState) :
    (provideCards rng sid pname gid s).1.currentTheme = s.currentTheme ∧
    (provideCards rng sid pname gid s).1.callList = s.callList ∧
    (provideCards rng sid pname gid s).1.currentCallIndex = s.currentCallIndex ∧
    (provideCards rng sid pname gid s).1.currentGameId = s.currentGameId ∧
    (provideCards rng sid pname gid s).1.calledHistory = s.calledHistory ∧
    (provideCards rng sid pname gid s).1.activePlayers = s.activePlayers := by
  cases h : lookupCards s.playerCardsByGame gid pname with
  | some cs =>
    rw [provideCards_stored h]
    exact ⟨rfl, rfl, rfl, rfl, rfl, rfl⟩
  | none =>
    rw [provideCards_fresh h]
    exact ⟨rfl, rfl, rfl, rfl, rfl, rfl⟩

/-- The card block never touches assignments of other (game, player)
pairs. -/
lemma lookupCards_provideCards_other (rng : Rng) (sid pname gid : String) (s : ServerState)
    (gid' pname' : String) (hne : gid' ≠ gid ∨ pname' ≠ pname) :
    lookupCards (provideCards rng sid pname gid s).1.playerCardsByGame gid' pname' =
      lookupCards s.playerCardsByGame gid' pname' := by
  cases h : lookupCards s.playerCardsByGame gid pname with
  | some cs => rw [provideCards_stored h]
  | none =>
    rw [provideCards_fresh h]
    by_cases hg : gid' = gid
    · subst hg
      have hp : pname' ≠ pname := by
        rcases hne with h1 | h1
        · exact absurd rfl h1
        · exact h1
      simp only [lookupCards, alGet_alSet_self]
      rw [alGet_alSet_ne _ pname pname' _ (fun hc => hp hc.symm)]
      rw [ensureGame_alGet]
      cases hm : alGet s.playerCardsByGame gid' with
      | some g => simp
      | none => simp [alGet]
    · simp only [lookupCards]
      rw [alGet_alSet_ne _ gid gid' _ (fun hc => hg hc.symm)]
      rw [ensureGame_alGet_ne _ gid gid' hg]

/-- The active-game guard ignores the roster. -/
lemma activeGame_setRoster (s : ServerState) (r : Roster) :
    activeGame { s with activePlayers := r } = activeGame s := rfl

/-- The active-game guard ignores the card store and snapshot. -/
lemma activeGame_provideCards (rng : Rng) (sid pname gid : String) (s : ServerState) :
    activeGame (provideCards rng sid pname gid s).1 = activeGame s := by
  cases h : lookupCards s.playerCardsByGame gid pname with
  | some cs => rw [provideCards_stored h]
  | none =>
    rw [provideCards_fresh h]
    rfl

/-! ### Handler decomposition lemmas -/

/-- The `join-game` handler leaves the game-session fields and the call
cursor untouched. -/
lemma handleJoin_fields (rng : Rng) (sid : String) (payload : JoinPayload) (s : ServerState) :
    (handleJoin rng sid payload s).1.currentTheme = s.currentTheme ∧
    (handleJoin rng sid payload s).1.callList = s.callList ∧
    (handleJoin rng sid payload s).1.currentCallIndex = s.currentCallIndex ∧
    (handleJoin rng sid payload s).1.currentGameId = s.currentGameId ∧
    (handleJoin rng sid payload s).1.calledHistory = s.calledHistory := by
  by_cases h : (normalizeJoin payload).1 = ""
  · simp [handleJoin, h]
  · simp only [handleJoin, if_neg h, activeGame_setRoster]
    cases hg : activeGame s with
    | none => exact ⟨rfl, rfl, rfl, rfl, rfl⟩
    | some gid =>
      have hf := provideCards_fields rng sid (joinFinalName s sid payload) gid
        { s with activePlayers := joinRoster2 s sid payload }
      exact ⟨hf.1, hf.2.1, hf.2.2.1, hf.2.2.2.1, hf.2.2.2.2.1⟩

/-- The roster after a valid `join-game` is exactly the one produced by
name resolution plus registration. -/
lemma handleJoin_roster (rng : Rng) (sid : String) (payload : JoinPayload) (s : ServerState)
    (h : ¬ (normalizeJoin payload).1 = "") :
    (handleJoin rng sid payload s).1.activePlayers = joinRoster2 s sid payload := by
  simp only [handleJoin, if_neg h, activeGame_setRoster]
  cases hg : activeGame s with
  | none => rfl
  | some gid =>
    have hf := provideCards_fields rng sid (joinFinalName s sid payload) gid
      { s with activePlayers := joinRoster2 s sid payload }
    exact hf.2.2.2.2.2

/-- The emissions of a valid `join-game`: the fixed prefix, followed by at
most one `generateCard` to the joining socket. -/
lemma handleJoin_out (rng : Rng) (sid : String) (payload : JoinPayload) (s : ServerState)
    (h : ¬ (normalizeJoin payload).1 = "") :
    (handleJoin rng sid payload s).2 = joinPreOut s sid payload ∨
    ∃ cs, (handleJoin rng sid payload s).2 =
      joinPreOut s sid payload ++ [(Target.only sid, SEvent.generateCard cs)] := by
  simp only [handleJoin, if_neg h, activeGame_setRoster]
  cases hg : activeGame s with
  | none => exact Or.inl rfl
  | some gid =>
    obtain ⟨cs, hcs, _⟩ := provideCards_spec rng sid (joinFinalName s sid payload) gid
      { s with activePlayers := joinRoster2 s sid payload }
    exact Or.inr ⟨cs, congrArg (fun o => joinPreOut s sid payload ++ o) hcs⟩

/-- `request-cards` leaves everything but the card store and snapshot
untouched. -/
lemma handleRequestCards_fields (rng : Rng) (sid : String) (mn : Option String)
    (s : ServerState) :
    (handleRequestCards rng sid mn s).1.currentTheme = s.currentTheme ∧
    (handleRequestCards rng sid mn s).1.callList = s.callList ∧
    (handleRequestCards rng sid mn s).1.currentCallIndex = s.currentCallIndex ∧
    (handleRequestCards rng sid mn s).1.currentGameId = s.currentGameId ∧
    (handleRequestCards rng sid mn s).1.calledHistory = s.calledHistory ∧
    (handleRequestCards rng sid mn s).1.activePlayers = s.activePlayers := by
  cases hg : activeGame s with
  | none => simp [handleRequestCards, hg]
  | some gid =>
    cases hn : requestName s sid mn with
    | none => simp [handleRequestCards, hg, hn]
    | some pname =>
      by_cases hp : pname = ""
      · simp [handleRequestCards, hg, hn, hp]
      · simp only [handleRequestCards, hg, hn, if_neg hp]
        exact provideCards_fields rng sid pname gid s

/-- When the guard passes and a name resolves, `request-cards` is exactly
the shared card block. -/
lemma handleRequestCards_eq_provide (rng : Rng) (sid : String) (mn : Option String)
    (s : ServerState) (gid pname : String) (hg : activeGame s = some gid)
    (hn : requestName s sid mn = some pname) (hp : pname ≠ "") :
    handleRequestCards rng sid mn s = provideCards rng sid pname gid s := by
  simp [handleRequestCards, hg, hn, hp]

/-- Name resolution of `request-cards` depends only on the roster. -/
lemma requestName_roster (s s' : ServerState) (hroster : s'.activePlayers = s.activePlayers)
    (sid : String) (mn : Option String) : requestName s' sid mn = requestName s sid mn := by
  unfold requestName
  rw [hroster]

/-- Requesting cards twice in a row with the same arguments produces the
same emissions: the second call always finds the stored set. -/
lemma handleRequestCards_idem (rngA rngB : Rng) (sid : String) (mn : Option String)
    (s : ServerState) :
    (handleRequestCards rngA sid mn (handleRequestCards rngB sid mn s).1).2 =
      (handleRequestCards rngB sid mn s).2 := by
  cases hg : activeGame s with
  | none =>
    have h1 : handleRequestCards rngB sid mn s = (s, []) := by simp [handleRequestCards, hg]
    rw [h1]
    simp [handleRequestCards, hg]
  | some gid =>
    cases hn : requestName s sid mn with
    | none =>
      have h1 : handleRequestCards rngB sid mn s = (s, []) := by simp [handleRequestCards, hg, hn]
      rw [h1]
      simp [handleRequestCards, hg, hn]
    | some pname =>
      by_cases hp : pname = ""
      · have h1 : handleRequestCards rngB sid mn s = (s, []) := by
          simp [handleRequestCards, hg, hn, hp]
        rw [h1]
        simp [handleRequestCards, hg, hn, hp]
      · have h1 := handleRequestCards_eq_provide rngB sid mn s gid pname hg hn hp
        obtain ⟨cs, hout, hlook, _, _⟩ := provideCards_spec rngB sid pname gid s
        have hg1 : activeGame (provideCards rngB sid pname gid s).1 = some gid := by
          rw [activeGame_provideCards]
          exact hg
        have hroster := (provideCards_fields rngB sid pname gid s).2.2.2.2.2
        have hn1 : requestName (provideCards rngB sid pname gid s).1 sid mn = some pname := by
          rw [requestName_roster s (provideCards rngB sid pname gid s).1 hroster sid mn]
          exact hn
        have h2 := handleRequestCards_eq_provide rngA sid mn
          (provideCards rngB sid pname gid s).1 gid pname hg1 hn1 hp
        rw [h1, h2, provideCards_stored hlook rngA sid, hout]

/-! ### Concrete scenario fixtures for witnesses -/

/-- A fixed randomness oracle for concrete runs. -/
def rng0 : Rng := fun _ _ => 0

/-- A small theme supplied by the host. -/
def wTheme : Option Theme := some ⟨some "80s", some ["A", "B", "C"]⟩

/-- State after socket `s1` joined as `Alice` on a fresh server. -/
def wJoined : ServerState :=
  (handleJoin rng0 "s1" (JoinPayload.strPayload "Alice") initState).1

/-- State after the host started a game while `Alice` is connected:
`Alice` has stored cards under `game_1`. -/
def wGame : ServerState :=
  (handleStartGame rng0 "game_1" ["s1"] wTheme wJoined).1

/-- The card set stored for `Alice` in `wGame`. -/
def wCS : CardSet := (lookupCards wGame.playerCardsByGame "game_1" "Alice").getD ⟨[], []⟩

/-! ### Claim theorems -/

/-- C1: once a `PlayerCardSet` is stored for a (gameId, playerName) pair,
every `join-game` resolving to that player and every `request-cards` for
that player while that game is current deliver exactly the stored set and
leave the card store unchanged; and requesting cards twice in a row
returns identical card sets both times. -/
theorem C1_cards_stable (s : ServerState) (gid pname : String) (cs : CardSet)
    (rngA rngB rngC : Rng) (sid : String) (payload : JoinPayload) (mn : Option String)
    (hact : activeGame s = some gid) (hpname : pname ≠ "")
    (hstored : lookupCards s.playerCardsByGame gid pname = some cs) :
    ((normalizeJoin payload).1 ≠ "" → joinFinalName s sid payload = pname →
      (Target.only sid, SEvent.generateCard cs) ∈ (handleJoin rngA sid payload s).2 ∧
      (handleJoin rngA sid payload s).1.playerCardsByGame = s.playerCardsByGame) ∧
    (requestName s sid mn = some pname →
      handleRequestCards rngB sid mn s = (s, [(Target.only sid, SEvent.generateCard cs)])) ∧
    ((handleRequestCards rngC sid mn (handleRequestCards rngB sid mn s).1).2 =
      (handleRequestCards rngB sid mn s).2) := by
  refine ⟨?_, ?_, handleRequestCards_idem rngC rngB sid mn s⟩
  · intro hname hfn
    simp only [handleJoin, if_neg hname, activeGame_setRoster, hact]
    have hstored1 : lookupCards
        ({ s with activePlayers := joinRoster2 s sid payload }).playerCardsByGame gid pname =
        some cs := hstored
    rw [hfn, provideCards_stored hstored1 rngA sid]
    exact ⟨by simp, rfl⟩
  · intro hreq
    rw [handleRequestCards_eq_provide rngB sid mn s gid pname hact hreq hpname,
      provideCards_stored hstored rngB sid]

/-- C4: `start-game` installs the fresh gameId, sets the call sequence to
a fresh shuffle of the supplied pool, resets the cursor to "nothing
called", clears the confirmed-call history, and leaves card assignments
only under the new gameId. -/
theorem C4_start_game_resets (rng : Rng) (newGid : String) (sockets : List String)
    (theme : Option Theme) (s : ServerState) :
    (handleStartGame rng newGid sockets theme s).1.currentGameId = some newGid ∧
    (handleStartGame rng newGid sockets theme s).1.callList =
      shuffle (rng 0) ((theme.bind Theme.songs).getD []) ∧
    (handleStartGame rng newGid sockets theme s).1.currentCallIndex = -1 ∧
    (handleStartGame rng newGid sockets theme s).1.calledHistory = [] ∧
    alKeys (handleStartGame rng newGid sockets theme s).1.playerCardsByGame = [newGid] ∧
    (∀ gid, gid ≠ newGid →
      alGet (handleStartGame rng newGid sockets theme s).1.playerCardsByGame gid = none) := by
  refine ⟨rfl, rfl, rfl, rfl, rfl, ?_⟩
  intro gid hgid
  simp only [handleStartGame]
  rw [alGet_cons, if_neg (fun hc => hgid hc.symm)]
  rfl

/-- C7: within one game the cursor is advanced only by `next-call`, by
exactly one position, broadcasting the item at the new position; at the
end `next-call` is a silent no-op; the cursor never exceeds the sequence
length; and no other handler moves the cursor or mutates the sequence. -/
theorem C7_cursor_discipline (s : ServerState) (rng : Rng) (sid : String)
    (payload : JoinPayload) (mn : Option String) (title : String) (txt : Option String)
    (n : Nat) :
    (s.currentCallIndex + 1 < (s.callList.length : Int) →
      handleNextCall s =
        ({ s with currentCallIndex := s.currentCallIndex + 1 },
         [(Target.all, SEvent.newCall (getIdx s.callList (s.currentCallIndex + 1)))])) ∧
    (¬ s.currentCallIndex + 1 < (s.callList.length : Int) → handleNextCall s = (s, [])) ∧
    (s.currentCallIndex + 1 ≤ (s.callList.length : Int) →
      (handleNextCall s).1.currentCallIndex + 1 ≤ ((handleNextCall s).1.callList.length : Int)) ∧
    (handleNextCall s).1.callList = s.callList ∧
    (handleJoin rng sid payload s).1.currentCallIndex = s.currentCallIndex ∧
    (handleJoin rng sid payload s).1.callList = s.callList ∧
    (handleRequestCards rng sid mn s).1.currentCallIndex = s.currentCallIndex ∧
    (handleRequestCards rng sid mn s).1.callList = s.callList ∧
    (handleConfirmSong title s).1.currentCallIndex = s.currentCallIndex ∧
    (handleConfirmSong title s).1.callList = s.callList ∧
    (handleAnnouncement txt s).1.currentCallIndex = s.currentCallIndex ∧
    (handleAnnouncement txt s).1.callList = s.callList ∧
    (handleDisconnect sid n s).1.currentCallIndex = s.currentCallIndex ∧
    (handleDisconnect sid n s).1.callList = s.callList ∧
    (handlePatternChange title s).1 = s ∧
    (handlePreviewSong sid title s).1 = s ∧
    (handleBingoClaim title s).1 = s ∧
    (handleClearSongs s).1 = s := by
  refine ⟨?_, ?_, ?_, ?_,
    (handleJoin_fields rng sid payload s).2.2.1, (handleJoin_fields rng sid payload s).2.1,
    (handleRequestCards_fields rng sid mn s).2.2.1, (handleRequestCards_fields rng sid mn s).2.1,
    rfl, rfl, rfl, rfl, rfl, rfl, rfl, rfl, rfl, rfl⟩
  · intro h
    simp [handleNextCall, h]
  · intro h
    simp [handleNextCall, h]
  · intro h
    by_cases hlt : s.currentCallIndex + 1 < (s.callList.length : Int)
    · simp only [handleNextCall, if_pos hlt]
      omega
    · simp only [handleNextCall, if_neg hlt]
      omega
  · by_cases hlt : s.currentCallIndex + 1 < (s.callList.length : Int)
    · simp only [handleNextCall, if_pos hlt]
    · simp only [handleNextCall, if_neg hlt]

/-- C9: a `join-game` whose payload yields an empty trimmed name (bare
whitespace string, missing or non-string `name` field, non-object
payload) answers `join-failed` with reason `Invalid name` to the caller
only, mutates nothing, and broadcasts nothing. -/
theorem C9_invalid_name (rng : Rng) (sid : String) (payload : JoinPayload) (s : ServerState)
    (h : (normalizeJoin payload).1 = "") :
    handleJoin rng sid payload s = (s, [(Target.only sid, SEvent.joinFailed "Invalid name")]) ∧
    (∀ e : SEvent, (Target.all, e) ∉ (handleJoin rng sid payload s).2) ∧
    normalizeJoin JoinPayload.otherPayload = ("", false) ∧
    (∀ r, normalizeJoin (JoinPayload.objPayload none r) = ("", r)) := by
  have h1 : handleJoin rng sid payload s =
      (s, [(Target.only sid, SEvent.joinFailed "Invalid name")]) := by
    simp [handleJoin, h]
  refine ⟨h1, ?_, rfl, fun r => rfl⟩
  intro e hmem
  rw [h1] at hmem
  simp at hmem

/-- C1 witness: in the concrete game `wGame`, re-joining and requesting
cards both deliver Alice's stored set. -/
theorem C1_witness :
    ((Target.only "s1", SEvent.generateCard wCS) ∈
      (handleJoin rng0 "s1" (JoinPayload.strPayload "Alice") wGame).2) ∧
    handleRequestCards rng0 "s1" none wGame =
      (wGame, [(Target.only "s1", SEvent.generateCard wCS)]) := by
  have h := C1_cards_stable wGame "game_1" "Alice" wCS rng0 rng0 rng0 "s1"
    (JoinPayload.strPayload "Alice") none (by decide) (by decide) (by decide)
  exact ⟨(h.1 (by decide) (by decide)).1, h.2.1 (by decide)⟩

/-- C4 witness: after starting `game_2`, nothing is stored under
`game_1` any more. -/
theorem C4_witness :
    alGet (handleStartGame rng0 "game_2" ["s1"] (some ⟨some "rock", some ["D", "E"]⟩)
      wGame).1.playerCardsByGame "game_1" = none :=
  (C4_start_game_resets rng0 "game_2" ["s1"] (some ⟨some "rock", some ["D", "E"]⟩)
    wGame).2.2.2.2.2 "game_1" (by decide)

/-- C7 witness: in `wGame` (three calls, none made) `next-call` advances
the cursor by one and broadcasts the item at the new position. -/
theorem C7_witness :
    handleNextCall wGame =
      ({ wGame with currentCallIndex := wGame.currentCallIndex + 1 },
       [(Target.all, SEvent.newCall (getIdx wGame.callList (wGame.currentCallIndex + 1)))]) :=
  (C7_cursor_discipline wGame rng0 "s1" JoinPayload.otherPayload none "A" none 0).1 (by decide)

/-- C9 witness: a whitespace-only name is rejected with `Invalid name`
and the state (including an active game) is untouched. -/
theorem C9_witness :
    handleJoin rng0 "s1" (JoinPayload.strPayload "   ") wGame =
      (wGame, [(Target.only "s1", SEvent.joinFailed "Invalid name")]) :=
  (C9_invalid_name rng0 "s1" (JoinPayload.strPayload "   ") wGame (by decide)).1

/-- C5: a non-resume join whose trimmed name is held by another connection
registers `name#k` for the least `k` at least 2 with `name#k` free, and is
told so via `name-disambiguated`; a non-colliding name is registered
unchanged with no disambiguation event. -/
theorem C5_suffix (rng : Rng) (sid : String) (payload : JoinPayload) (s : ServerState)
    (hname : (normalizeJoin payload).1 ≠ "") (hres : (normalizeJoin payload).2 = false) :
    ((∃ p ∈ s.activePlayers, p.2 = (normalizeJoin payload).1 ∧ p.1 ≠ sid) →
      ∃ k, joinFinalName s sid payload = suffixName (normalizeJoin payload).1 k ∧
        2 ≤ k ∧
        suffixName (normalizeJoin payload).1 k ∉ alValues s.activePlayers ∧
        (∀ j, 2 ≤ j → j < k →
          suffixName (normalizeJoin payload).1 j ∈ alValues s.activePlayers) ∧
        (Target.only sid, SEvent.nameDisambiguated (joinFinalName s sid payload))
          ∈ (handleJoin rng sid payload s).2 ∧
        alGet (handleJoin rng sid payload s).1.activePlayers sid =
          some (joinFinalName s sid payload)) ∧
    (¬ (∃ p ∈ s.activePlayers, p.2 = (normalizeJoin payload).1 ∧ p.1 ≠ sid) →
      joinFinalName s sid payload = (normalizeJoin payload).1 ∧
      alGet (handleJoin rng sid payload s).1.activePlayers sid =
        some ((normalizeJoin payload).1) ∧
      (∀ x, (Target.only sid, SEvent.nameDisambiguated x) ∉ (handleJoin rng sid payload s).2)) := by
  constructor
  · intro htaken
    have hrn := resolveName_nonresume_taken s.activePlayers sid (normalizeJoin payload).1 htaken
    have hfn : joinFinalName s sid payload =
        suffixName (normalizeJoin payload).1
          (resolveSuffix (alValues s.activePlayers) (normalizeJoin payload).1) := by
      unfold joinFinalName
      rw [hres, hrn]
    refine ⟨resolveSuffix (alValues s.activePlayers) (normalizeJoin payload).1, hfn,
      (resolveSuffix_spec _ _).1, (resolveSuffix_spec _ _).2.1, (resolveSuffix_spec _ _).2.2,
      ?_, ?_⟩
    · have hdis : (resolveName s.activePlayers sid (normalizeJoin payload).1
          (normalizeJoin payload).2).2.2 = true := by
        rw [hres, hrn]
      have hpre : (Target.only sid, SEvent.nameDisambiguated (joinFinalName s sid payload))
          ∈ joinPreOut s sid payload := by
        unfold joinPreOut
        rw [hdis]
        simp
      rcases handleJoin_out rng sid payload s hname with hout | ⟨cs, hout⟩
      · rw [hout]
        exact hpre
      · rw [hout]
        exact List.mem_append_left _ hpre
    · rw [handleJoin_roster rng sid payload s hname]
      unfold joinRoster2
      rw [alGet_alSet_self]
  · intro hfree
    have hrn := resolveName_nonresume_free s.activePlayers sid (normalizeJoin payload).1 hfree
    have hfn : joinFinalName s sid payload = (normalizeJoin payload).1 := by
      unfold joinFinalName
      rw [hres, hrn]
    refine ⟨hfn, ?_, ?_⟩
    · rw [handleJoin_roster rng sid payload s hname]
      unfold joinRoster2
      rw [alGet_alSet_self, hfn]
    · intro x hmem
      have hdis : (resolveName s.activePlayers sid (normalizeJoin payload).1
          (normalizeJoin payload).2).2.2 = false := by
        rw [hres, hrn]
      rcases handleJoin_out rng sid payload s hname with hout | ⟨cs, hout⟩
      · rw [hout] at hmem
        unfold joinPreOut at hmem
        rw [hdis] at hmem
        simp at hmem
      · rw [hout] at hmem
        unfold joinPreOut at hmem
        rw [hdis] at hmem
        simp at hmem

/-- C6: a resume join with a non-empty name evicts any other connection
holding that name, registers the new connection under exactly the
requested name (no suffix), and `join-accepted` carries it verbatim. -/
theorem C6_resume_reclaim (rng : Rng) (sid : String) (payload : JoinPayload) (s : ServerState)
    (hname : (normalizeJoin payload).1 ≠ "") (hres : (normalizeJoin payload).2 = true)
    (hvals : (alValues s.activePlayers).Nodup) :
    joinFinalName s sid payload = (normalizeJoin payload).1 ∧
    (Target.only sid, SEvent.joinAccepted ((normalizeJoin payload).1))
      ∈ (handleJoin rng sid payload s).2 ∧
    (∀ x, (Target.only sid, SEvent.nameDisambiguated x) ∉ (handleJoin rng sid payload s).2) ∧
    alGet (handleJoin rng sid payload s).1.activePlayers sid =
      some ((normalizeJoin payload).1) ∧
    (∀ p ∈ s.activePlayers, p.2 = (normalizeJoin payload).1 → p.1 ≠ sid →
      alGet (handleJoin rng sid payload s).1.activePlayers p.1 = none) := by
  have hrn := resolveName_resume s.activePlayers sid (normalizeJoin payload).1
  have hfn : joinFinalName s sid payload = (normalizeJoin payload).1 := by
    unfold joinFinalName
    rw [hres, hrn]
  refine ⟨hfn, ?_, ?_, ?_, ?_⟩
  · have hpre : (Target.only sid, SEvent.joinAccepted (joinFinalName s sid payload))
        ∈ joinPreOut s sid payload := by
      unfold joinPreOut
      by_cases hd : (resolveName s.activePlayers sid (normalizeJoin payload).1
          (normalizeJoin payload).2).2.2 <;> simp [hd]
    rw [hfn] at hpre
    rcases handleJoin_out rng sid payload s hname with hout | ⟨cs, hout⟩
    · rw [hout]
      exact hpre
    · rw [hout]
      exact List.mem_append_left _ hpre
  · intro x hmem
    have hdis : (resolveName s.activePlayers sid (normalizeJoin payload).1
        (normalizeJoin payload).2).2.2 = false := by
      rw [hres, hrn]
    rcases handleJoin_out rng sid payload s hname with hout | ⟨cs, hout⟩
    · rw [hout] at hmem
      unfold joinPreOut at hmem
      rw [hdis] at hmem
      simp at hmem
    · rw [hout] at hmem
      unfold joinPreOut at hmem
      rw [hdis] at hmem
      simp at hmem
  · rw [handleJoin_roster rng sid payload s hname]
    unfold joinRoster2
    rw [alGet_alSet_self, hfn]
  · intro p hp hpname hpsid
    rw [handleJoin_roster rng sid payload s hname]
    unfold joinRoster2
    rw [alGet_alSet_ne _ sid p.1 _ (fun hc => hpsid hc.symm)]
    -- the find cannot fail: p itself matches
    cases hf : s.activePlayers.find? (fun q => q.2 == (normalizeJoin payload).1) with
    | none =>
      exfalso
      have := List.find?_eq_none.mp hf p hp
      simp at this
      exact this hpname
    | some q =>
      have hqname : q.2 = (normalizeJoin payload).1 := by
        have := List.find?_some hf
        simpa using this
      have hqmem : q ∈ s.activePlayers := List.mem_of_find?_eq_some hf
      have hqp : q = p := alValues_nodup_inj hvals hqmem hp (hqname.trans hpname.symm)
      have hroster1 : (resolveName s.activePlayers sid (normalizeJoin payload).1
          (normalizeJoin payload).2).2.1 = alDelete s.activePlayers p.1 := by
        rw [hres, hrn]
        show (match s.activePlayers.find? (fun q => q.2 == (normalizeJoin payload).1) with
          | some q => if q.1 ≠ sid then alDelete s.activePlayers q.1 else s.activePlayers
          | none => s.activePlayers) = alDelete s.activePlayers p.1
        rw [hf, hqp]
        show (if p.1 ≠ sid then alDelete s.activePlayers p.1 else s.activePlayers) =
          alDelete s.activePlayers p.1
        rw [if_pos hpsid]
      rw [hroster1]
      exact alGet_alDelete_self s.activePlayers p.1

/-- State after a second socket also joined as `Alice` (getting
`Alice#2`): roster holds `Alice` and `Alice#2`. -/
def wTwo : ServerState :=
  (handleJoin rng0 "s2" (JoinPayload.strPayload "Alice") wGame).1

/-- C5 witness: with `Alice` and `Alice#2` connected, a third non-resume
`Alice` is disambiguated, registered under the substituted name, and the
chosen suffix is 3. -/
theorem C5_witness :
    ((Target.only "s3",
        SEvent.nameDisambiguated (joinFinalName wTwo "s3" (JoinPayload.strPayload "Alice")))
      ∈ (handleJoin rng0 "s3" (JoinPayload.strPayload "Alice") wTwo).2) ∧
    alGet (handleJoin rng0 "s3" (JoinPayload.strPayload "Alice") wTwo).1.activePlayers "s3" =
      some (joinFinalName wTwo "s3" (JoinPayload.strPayload "Alice")) ∧
    joinFinalName wTwo "s3" (JoinPayload.strPayload "Alice") = "Alice#3" := by
  obtain ⟨k, h1, h2, h3, h4, h5, h6⟩ :=
    (C5_suffix rng0 "s3" (JoinPayload.strPayload "Alice") wTwo (by decide) (by decide)).1
      (by decide)
  exact ⟨h5, h6, by decide⟩

/-- C6 witness: socket `s4` resumes as `Alice` while `s1` still holds the
name: `s4` gets `Alice` verbatim and `s1` is evicted. -/
theorem C6_witness :
    joinFinalName wGame "s4" (JoinPayload.objPayload (some "Alice") true) = "Alice" ∧
    ((Target.only "s4", SEvent.joinAccepted "Alice")
      ∈ (handleJoin rng0 "s4" (JoinPayload.objPayload (some "Alice") true) wGame).2) ∧
    alGet (handleJoin rng0 "s4"
        (JoinPayload.objPayload (some "Alice") true) wGame).1.activePlayers "s4" =
      some "Alice" ∧
    alGet (handleJoin rng0 "s4"
        (JoinPayload.objPayload (some "Alice") true) wGame).1.activePlayers "s1" = none := by
  have h := C6_resume_reclaim rng0 "s4" (JoinPayload.objPayload (some "Alice") true) wGame
    (by decide) (by decide) (by decide)
  exact ⟨h.1, h.2.1, h.2.2.2.1,
    h.2.2.2.2 ("s1", "Alice") (by decide) (by decide) (by decide)⟩

/-- No two distinct connections map to the same display name. -/
def distinctNames (l : Roster) : Prop :=
  ∀ p ∈ l, ∀ q ∈ l, p.1 ≠ q.1 → p.2 ≠ q.2

lemma distinctNames_of_values_nodup {l : Roster} (h : (alValues l).Nodup) : distinctNames l := by
  intro p hp q hq hne hcontra
  exact hne (congrArg Prod.fst (alValues_nodup_inj h hp hq hcontra))

/-- Registration of the resolved name preserves both key and value
uniqueness of the roster. -/
lemma joinRoster2_nodup (sid : String) (payload : JoinPayload) (s : ServerState)
    (hkeys : (alKeys s.activePlayers).Nodup) (hvals : (alValues s.activePlayers).Nodup) :
    (alKeys (joinRoster2 s sid payload)).Nodup ∧
    (alValues (joinRoster2 s sid payload)).Nodup := by
  have hfresh := resolveName_fresh s.activePlayers sid (normalizeJoin payload).1
    (normalizeJoin payload).2 hvals
  unfold joinRoster2 joinFinalName
  rcases resolveName_roster_cases s.activePlayers sid (normalizeJoin payload).1
      (normalizeJoin payload).2 with h1 | ⟨x, h1⟩
  · rw [h1]
    rw [h1] at hfresh
    exact ⟨alKeys_alSet_nodup hkeys, alValues_alSet_nodup hkeys hvals hfresh⟩
  · rw [h1]
    rw [h1] at hfresh
    have hkeys' : (alKeys (alDelete s.activePlayers x)).Nodup :=
      List.Nodup.sublist (List.Sublist.map Prod.fst (alDelete_sublist s.activePlayers x)) hkeys
    have hvals' : (alValues (alDelete s.activePlayers x)).Nodup :=
      List.Nodup.sublist (List.Sublist.map Prod.snd (alDelete_sublist s.activePlayers x)) hvals
    exact ⟨alKeys_alSet_nodup hkeys', alValues_alSet_nodup hkeys' hvals' hfresh⟩

/-- C2: after every completed join (resume or not) and every disconnect,
no two distinct connectionIds map to the same display name; and a join
with a non-empty name is always accepted, never rejected for collision. -/
theorem C2_roster_unique (rng : Rng) (sid : String) (payload : JoinPayload) (n : Nat)
    (s : ServerState)
    (hkeys : (alKeys s.activePlayers).Nodup) (hvals : (alValues s.activePlayers).Nodup) :
    distinctNames (handleJoin rng sid payload s).1.activePlayers ∧
    (alKeys (handleJoin rng sid payload s).1.activePlayers).Nodup ∧
    (alValues (handleJoin rng sid payload s).1.activePlayers).Nodup ∧
    distinctNames (handleDisconnect sid n s).1.activePlayers ∧
    (alValues (handleDisconnect sid n s).1.activePlayers).Nodup ∧
    ((normalizeJoin payload).1 ≠ "" →
      (Target.only sid, SEvent.joinAccepted (joinFinalName s sid payload))
        ∈ (handleJoin rng sid payload s).2) := by
  have hdvals : (alValues (handleDisconnect sid n s).1.activePlayers).Nodup := by
    show (alValues (alDelete s.activePlayers sid)).Nodup
    exact List.Nodup.sublist (List.Sublist.map Prod.snd (alDelete_sublist s.activePlayers sid))
      hvals
  by_cases h : (normalizeJoin payload).1 = ""
  · have h1 : handleJoin rng sid payload s =
        (s, [(Target.only sid, SEvent.joinFailed "Invalid name")]) := by
      simp [handleJoin, h]
    rw [h1]
    exact ⟨distinctNames_of_values_nodup hvals, hkeys, hvals,
      distinctNames_of_values_nodup hdvals, hdvals, fun hn => absurd h hn⟩
  · have hro := handleJoin_roster rng sid payload s h
    obtain ⟨hk2, hv2⟩ := joinRoster2_nodup sid payload s hkeys hvals
    rw [hro]
    refine ⟨distinctNames_of_values_nodup hv2, hk2, hv2,
      distinctNames_of_values_nodup hdvals, hdvals, ?_⟩
    intro _
    have hpre : (Target.only sid, SEvent.joinAccepted (joinFinalName s sid payload))
        ∈ joinPreOut s sid payload := by
      unfold joinPreOut
      by_cases hd : (resolveName s.activePlayers sid (normalizeJoin payload).1
          (normalizeJoin payload).2).2.2 <;> simp [hd]
    rcases handleJoin_out rng sid payload s h with hout | ⟨cs, hout⟩
    · rw [hout]
      exact hpre
    · rw [hout]
      exact List.mem_append_left _ hpre

/-- C2 witness: a colliding non-resume join on the concrete game state is
accepted (with a suffixed name) and the roster values stay distinct. -/
theorem C2_witness :
    (alValues (handleJoin rng0 "s2"
        (JoinPayload.strPayload "Alice") wGame).1.activePlayers).Nodup ∧
    ((Target.only "s2",
        SEvent.joinAccepted (joinFinalName wGame "s2" (JoinPayload.strPayload "Alice")))
      ∈ (handleJoin rng0 "s2" (JoinPayload.strPayload "Alice") wGame).2) := by
  have h := C2_roster_unique rng0 "s2" (JoinPayload.strPayload "Alice") 0 wGame
    (by decide) (by decide)
  exact ⟨h.2.2.1, h.2.2.2.2.2 (by decide)⟩

/-- Recognizer for card-delivery events. -/
def isCardEvent (e : SEvent) : Bool :=
  match e with
  | SEvent.generateCard _ => true
  | _ => false

/-- State after a `start-game` whose theme has no name: the gameId is set
and the call sequence is non-empty, but `currentTheme` is `""`. -/
def wNoTheme : ServerState :=
  (handleStartGame rng0 "game_9" [] (some ⟨none, some ["A"]⟩) initState).1

/-- C3 counterexample: a join during an active game with a non-empty call
sequence receives no `generateCard` at all, because the theme name is
empty — non-empty CallSequence is not the only precondition. -/
theorem C3_counterexample :
    wNoTheme.currentGameId = some "game_9" ∧
    wNoTheme.callList = ["A"] ∧
    (normalizeJoin (JoinPayload.strPayload "Alice")).1 = "Alice" ∧
    ((handleJoin rng0 "sx" (JoinPayload.strPayload "Alice") wNoTheme).2.all
      (fun p => !(isCardEvent p.2))) = true := by
  exact ⟨rfl, by decide, by decide, by decide⟩

/-- C3 amended: when the session guard holds — non-null, non-empty
gameId, non-empty theme name AND non-empty call sequence — every join
with a valid name has the joiner's card set looked up or created under
the current gameId and delivered directly via `generateCard`. -/
theorem C3_card_delivery (rng : Rng) (sid : String) (payload : JoinPayload) (s : ServerState)
    (gid : String) (hname : (normalizeJoin payload).1 ≠ "") (hact : activeGame s = some gid) :
    ∃ cs, (Target.only sid, SEvent.generateCard cs) ∈ (handleJoin rng sid payload s).2 ∧
      lookupCards (handleJoin rng sid payload s).1.playerCardsByGame gid
        (joinFinalName s sid payload) = some cs ∧
      (∀ cs0, lookupCards s.playerCardsByGame gid (joinFinalName s sid payload) = some cs0 →
        cs = cs0) := by
  simp only [handleJoin, if_neg hname, activeGame_setRoster, hact]
  obtain ⟨cs, hout, hlook, hstored, _⟩ := provideCards_spec rng sid (joinFinalName s sid payload)
    gid { s with activePlayers := joinRoster2 s sid payload }
  have hmem : (Target.only sid, SEvent.generateCard cs) ∈
      joinPreOut s sid payload ++ (provideCards rng sid (joinFinalName s sid payload) gid
        { s with activePlayers := joinRoster2 s sid payload }).2 := by
    rw [hout]
    simp
  exact ⟨cs, hmem, hlook, hstored⟩

/-- C3 amended witness: on the concrete active game, a fresh player `Bob`
joining gets a card set delivered and stored under the current gameId. -/
theorem C3_witness :
    ∃ cs, (Target.only "s5", SEvent.generateCard cs) ∈
        (handleJoin rng0 "s5" (JoinPayload.strPayload "Bob") wGame).2 ∧
      lookupCards (handleJoin rng0 "s5"
          (JoinPayload.strPayload "Bob") wGame).1.playerCardsByGame
        "game_1" (joinFinalName wGame "s5" (JoinPayload.strPayload "Bob")) = some cs ∧
      (∀ cs0, lookupCards wGame.playerCardsByGame "game_1"
          (joinFinalName wGame "s5" (JoinPayload.strPayload "Bob")) = some cs0 → cs = cs0) :=
  C3_card_delivery rng0 "s5" (JoinPayload.strPayload "Bob") wGame "game_1" (by decide) (by decide)

/-! ### Start-game loop lemmas -/

lemma startGameLoop_out_shape (rng : Rng) (songs : List String) (roster : Roster) :
    ∀ (socks : List String) (k : Nat) (acc : GameCards) (t : Target) (cs : CardSet),
      (t, SEvent.generateCard cs) ∈ (startGameLoop rng songs roster socks k acc).2 →
      ∃ j, cs = ⟨(shuffle (rng (2*j+1)) songs).take 25, (shuffle (rng (2*j+2)) songs).take 25⟩ := by
  intro socks
  induction socks with
  | nil =>
    intro k acc t cs h
    simp [startGameLoop] at h
  | cons cid rest ih =>
    intro k acc t cs h
    simp only [startGameLoop] at h
    rcases List.mem_cons.mp h with h1 | h1
    · have h2 := congrArg Prod.snd h1
      simp only at h2
      injection h2 with h3
      exact ⟨k, h3⟩
    · exact ih (k+1) _ t cs h1

lemma startGameLoop_emits (rng : Rng) (songs : List String) (roster : Roster) :
    ∀ (socks : List String) (k : Nat) (acc : GameCards) (cid : String), cid ∈ socks →
      ∃ cs, (Target.only cid, SEvent.generateCard cs)
        ∈ (startGameLoop rng songs roster socks k acc).2 := by
  intro socks
  induction socks with
  | nil =>
    intro k acc cid h
    simp at h
  | cons c0 rest ih =>
    intro k acc cid h
    rcases List.mem_cons.mp h with h1 | h1
    · subst h1
      exact ⟨_, by simp only [startGameLoop]; exact List.mem_cons_self _ _⟩
    · obtain ⟨cs, hcs⟩ := ih (k+1) (match alGet roster c0 with
        | some pname => alSet acc pname
            ⟨(shuffle (rng (2*k+1)) songs).take 25, (shuffle (rng (2*k+2)) songs).take 25⟩
        | none => acc) cid h1
      exact ⟨cs, by simp only [startGameLoop]; exact List.mem_cons_of_mem _ hcs⟩

lemma startGameLoop_store (rng : Rng) (songs : List String) (roster : Roster) :
    ∀ (socks : List String) (k : Nat) (acc : GameCards) (pname : String) (cs : CardSet),
      alGet (startGameLoop rng songs roster socks k acc).1 pname = some cs →
      alGet acc pname = some cs ∨
      ((∃ cid ∈ socks, alGet roster cid = some pname) ∧
       ∃ j, cs = ⟨(shuffle (rng (2*j+1)) songs).take 25,
                  (shuffle (rng (2*j+2)) songs).take 25⟩) := by
  intro socks
  induction socks with
  | nil =>
    intro k acc pname cs h
    exact Or.inl h
  | cons cid rest ih =>
    intro k acc pname cs h
    simp only [startGameLoop] at h
    cases halc : alGet roster cid with
    | none =>
      rw [halc] at h
      simp only at h
      rcases ih (k+1) acc pname cs h with h1 | ⟨⟨c, hc, hcp⟩, hj⟩
      · exact Or.inl h1
      · exact Or.inr ⟨⟨c, List.mem_cons_of_mem _ hc, hcp⟩, hj⟩
    | some pn =>
      rw [halc] at h
      simp only at h
      rcases ih (k+1) _ pname cs h with h1 | ⟨⟨c, hc, hcp⟩, hj⟩
      · rcases alGet_alSet_cases h1 with ⟨hpn, hcs⟩ | h2
        · refine Or.inr ⟨⟨cid, List.mem_cons_self _ _, ?_⟩, ⟨k, hcs⟩⟩
          rw [halc, hpn]
        · exact Or.inl h2
      · exact Or.inr ⟨⟨c, List.mem_cons_of_mem _ hc, hcp⟩, hj⟩

lemma startGameLoop_not_touched (rng : Rng) (songs : List String) (roster : Roster) :
    ∀ (socks : List String) (k : Nat) (acc : GameCards) (pname : String),
      (∀ cid ∈ socks, alGet roster cid ≠ some pname) →
      alGet (startGameLoop rng songs roster socks k acc).1 pname = alGet acc pname := by
  intro socks
  induction socks with
  | nil =>
    intro k acc pname _
    rfl
  | cons cid rest ih =>
    intro k acc pname hno
    simp only [startGameLoop]
    cases halc : alGet roster cid with
    | none =>
      exact ih (k+1) acc pname (fun c hc => hno c (List.mem_cons_of_mem _ hc))
    | some pn =>
      have hpn : pn ≠ pname := by
        intro hc
        exact hno cid (List.mem_cons_self _ _) (by rw [halc, hc])
      rw [ih (k+1) _ pname (fun c hc => hno c (List.mem_cons_of_mem _ hc))]
      exact alGet_alSet_ne acc pn pname _ hpn

lemma startGameLoop_named (rng : Rng) (songs : List String) (roster : Roster)
    (hvals : (alValues roster).Nodup) :
    ∀ (socks : List String) (k : Nat) (acc : GameCards) (cid pname : String),
      socks.Nodup → cid ∈ socks → alGet roster cid = some pname →
      ∃ cs, (Target.only cid, SEvent.generateCard cs)
          ∈ (startGameLoop rng songs roster socks k acc).2 ∧
        alGet (startGameLoop rng songs roster socks k acc).1 pname = some cs := by
  intro socks
  induction socks with
  | nil =>
    intro k acc cid pname _ h _
    simp at h
  | cons c0 rest ih =>
    intro k acc cid pname hnd hmem halc
    rcases List.mem_cons.mp hmem with h1 | h1
    · subst h1
      have hrest : ∀ c ∈ rest, alGet roster c ≠ some pname := by
        intro c hc hcp
        have hcne : c ≠ cid := by
          intro hceq
          subst hceq
          exact (List.nodup_cons.mp hnd).1 hc
        have hm1 := alGet_eq_some_mem halc
        have hm2 := alGet_eq_some_mem hcp
        have := alValues_nodup_inj hvals hm1 hm2 rfl
        exact hcne (congrArg Prod.fst this).symm
      refine ⟨⟨(shuffle (rng (2*k+1)) songs).take 25, (shuffle (rng (2*k+2)) songs).take 25⟩,
        ?_, ?_⟩
      · simp only [startGameLoop]
        exact List.mem_cons_self _ _
      · simp only [startGameLoop, halc]
        rw [startGameLoop_not_touched rng songs roster rest (k+1) _ pname hrest]
        exact alGet_alSet_self acc pname _
    · obtain ⟨cs, hcs1, hcs2⟩ := ih (k+1) (match alGet roster c0 with
        | some pn => alSet acc pn
            ⟨(shuffle (rng (2*k+1)) songs).take 25, (shuffle (rng (2*k+2)) songs).take 25⟩
        | none => acc) cid pname (List.nodup_cons.mp hnd).2 h1 halc
      refine ⟨cs, ?_, ?_⟩
      · simp only [startGameLoop]
        exact List.mem_cons_of_mem _ hcs1
      · simp only [startGameLoop]
        exact hcs2

/-- C10: `start-game` sends a freshly drawn card pair to every connected
socket (named in the lobby or not), stores pairs under the new gameId
exactly for sockets with a registered display name, and persists the
store; an unnamed socket's pair is stored nowhere. -/
theorem C10_start_game_delivery (rng : Rng) (newGid : String) (sockets : List String)
    (theme : Option Theme) (s : ServerState)
    (hsock : sockets.Nodup) (hvals : (alValues s.activePlayers).Nodup) :
    (∀ cid ∈ sockets, ∃ cs, (Target.only cid, SEvent.generateCard cs)
        ∈ (handleStartGame rng newGid sockets theme s).2) ∧
    (∀ pname cs,
      lookupCards (handleStartGame rng newGid sockets theme s).1.playerCardsByGame newGid pname
        = some cs →
      ∃ cid ∈ sockets, alGet s.activePlayers cid = some pname) ∧
    (∀ cid ∈ sockets, ∀ pname, alGet s.activePlayers cid = some pname →
      ∃ cs, (Target.only cid, SEvent.generateCard cs)
          ∈ (handleStartGame rng newGid sockets theme s).2 ∧
        lookupCards (handleStartGame rng newGid sockets theme s).1.playerCardsByGame newGid
          pname = some cs) ∧
    (handleStartGame rng newGid sockets theme s).1.snapshot =
      ⟨some newGid, (handleStartGame rng newGid sockets theme s).1.playerCardsByGame⟩ := by
  refine ⟨?_, ?_, ?_, rfl⟩
  · intro cid hc
    obtain ⟨cs, hcs⟩ := startGameLoop_emits rng ((theme.bind Theme.songs).getD [])
      s.activePlayers sockets 0 [] cid hc
    refine ⟨cs, ?_⟩
    simp only [handleStartGame]
    exact List.mem_append_right _ hcs
  · intro pname cs h
    have h2 : alGet (startGameLoop rng ((theme.bind Theme.songs).getD [])
        s.activePlayers sockets 0 []).1 pname = some cs := by
      have h3 : lookupCards [(newGid, (startGameLoop rng ((theme.bind Theme.songs).getD [])
          s.activePlayers sockets 0 []).1)] newGid pname = some cs := h
      simpa [lookupCards, alGet] using h3
    rcases startGameLoop_store rng ((theme.bind Theme.songs).getD []) s.activePlayers
        sockets 0 [] pname cs h2 with h4 | ⟨⟨cid, hc, hcp⟩, _⟩
    · simp [alGet] at h4
    · exact ⟨cid, hc, hcp⟩
  · intro cid hc pname hcp
    obtain ⟨cs, h1, h2⟩ := startGameLoop_named rng ((theme.bind Theme.songs).getD [])
      s.activePlayers hvals sockets 0 [] cid pname hsock hc hcp
    refine ⟨cs, ?_, ?_⟩
    · simp only [handleStartGame]
      exact List.mem_append_right _ h1
    · simp only [handleStartGame]
      simp [lookupCards, alGet, h2]

/-- C10 witness: starting `game_5` with a named socket `s1` (Alice) and a
nameless socket `sb` connected delivers to both, stores only Alice's pair
under `game_5`, and persists the store. -/
theorem C10_witness :
    (∃ cs, (Target.only "sb", SEvent.generateCard cs)
        ∈ (handleStartGame rng0 "game_5" ["s1", "sb"] wTheme wJoined).2) ∧
    (∃ cs, (Target.only "s1", SEvent.generateCard cs)
        ∈ (handleStartGame rng0 "game_5" ["s1", "sb"] wTheme wJoined).2 ∧
      lookupCards (handleStartGame rng0 "game_5" ["s1", "sb"] wTheme
          wJoined).1.playerCardsByGame "game_5" "Alice" = some cs) ∧
    (handleStartGame rng0 "game_5" ["s1", "sb"] wTheme wJoined).1.snapshot =
      ⟨some "game_5", (handleStartGame rng0 "game_5" ["s1", "sb"] wTheme
          wJoined).1.playerCardsByGame⟩ := by
  have h := C10_start_game_delivery rng0 "game_5" ["s1", "sb"] wTheme wJoined
    (by decide) (by decide)
  exact ⟨h.1 "sb" (by decide), h.2.2.1 "s1" (by decide) "Alice" (by decide), h.2.2.2⟩

/-! ### Card-size invariant (C8) -/

/-- Every card set stored for the currently active game has cards of
exactly `min 25 |callList|` entries. -/
def goodLen (s : ServerState) : Prop :=
  ∀ gid pname cs, activeGame s = some gid →
    lookupCards s.playerCardsByGame gid pname = some cs →
    cs.card1.length = min 25 s.callList.length ∧ cs.card2.length = min 25 s.callList.length

lemma goodLen_setRoster {s : ServerState} (r : Roster) (h : goodLen s) :
    goodLen { s with activePlayers := r } := h

/-- The fixed prefix of `join-game` emissions contains no card event. -/
lemma joinPreOut_no_card (s : ServerState) (sid : String) (payload : JoinPayload) :
    ∀ t cs, (t, SEvent.generateCard cs) ∉ joinPreOut s sid payload := by
  intro t cs hmem
  unfold joinPreOut at hmem
  by_cases hd : (resolveName s.activePlayers sid (normalizeJoin payload).1
      (normalizeJoin payload).2).2.2 <;> simp [hd] at hmem

/-- The two decomposition equalities of a valid join. -/
lemma handleJoin_active (rng : Rng) (sid : String) (payload : JoinPayload) (s : ServerState)
    (gid : String) (hname : ¬ (normalizeJoin payload).1 = "")
    (hact : activeGame s = some gid) :
    handleJoin rng sid payload s =
      ((provideCards rng sid (joinFinalName s sid payload) gid
          { s with activePlayers := joinRoster2 s sid payload }).1,
       joinPreOut s sid payload ++ (provideCards rng sid (joinFinalName s sid payload) gid
          { s with activePlayers := joinRoster2 s sid payload }).2) := by
  simp only [handleJoin, if_neg hname, activeGame_setRoster, hact]

lemma handleJoin_noGame (rng : Rng) (sid : String) (payload : JoinPayload) (s : ServerState)
    (hname : ¬ (normalizeJoin payload).1 = "") (hact : activeGame s = none) :
    handleJoin rng sid payload s =
      ({ s with activePlayers := joinRoster2 s sid payload }, joinPreOut s sid payload) := by
  simp only [handleJoin, if_neg hname, activeGame_setRoster, hact]

/-- The card block preserves the size invariant and only emits cards of
the invariant size. -/
lemma goodLen_provideCards (rng : Rng) (sid pname gid : String) (s : ServerState)
    (hact : activeGame s = some gid) (h : goodLen s) :
    goodLen (provideCards rng sid pname gid s).1 ∧
    (∀ t cs, (t, SEvent.generateCard cs) ∈ (provideCards rng sid pname gid s).2 →
      cs.card1.length = min 25 s.callList.length ∧
      cs.card2.length = min 25 s.callList.length) := by
  obtain ⟨cs, hout, hlook, hstored, hfresh⟩ := provideCards_spec rng sid pname gid s
  have hcslen : cs.card1.length = min 25 s.callList.length ∧
      cs.card2.length = min 25 s.callList.length := by
    cases hl : lookupCards s.playerCardsByGame gid pname with
    | some cs0 =>
      rw [hstored cs0 hl]
      exact h gid pname cs0 hact hl
    | none =>
      rw [hfresh hl]
      exact ⟨drawCard_length _ _, drawCard_length _ _⟩
  have hfields := provideCards_fields rng sid pname gid s
  constructor
  · intro gid' pname' cs' hact' hlook'
    rw [activeGame_provideCards rng sid pname gid s, hact] at hact'
    have hgid : gid = gid' := by injection hact'
    subst hgid
    rw [hfields.2.1]
    by_cases hpn : pname' = pname
    · subst hpn
      rw [hlook] at hlook'
      have hcc : cs = cs' := by injection hlook'
      rw [← hcc]
      exact hcslen
    · rw [lookupCards_provideCards_other rng sid pname gid s gid pname' (Or.inr hpn)] at hlook'
      exact h gid pname' cs' hact hlook'
  · intro t cs2 hmem
    rw [hout] at hmem
    simp only [List.mem_singleton, Prod.mk.injEq] at hmem
    have hcs2 : cs2 = cs := by
      have := hmem.2
      injection this
    rw [hcs2]
    exact hcslen

/-- C8: every drawn card — at start-game for every connected socket, and
at join or request-cards whenever a fresh set is created — has exactly
`min 25 |pool|` entries; the invariant is established by start-game and
preserved by join and request-cards. -/
theorem C8_card_sizes (rng : Rng) (r : Nat → Nat) (pool : List String) (newGid : String)
    (sockets : List String) (theme : Option Theme) (s : ServerState) (sid : String)
    (payload : JoinPayload) (mn : Option String) :
    (drawCard r pool).length = min 25 pool.length ∧
    (handleStartGame rng newGid sockets theme s).1.callList.length =
      ((theme.bind Theme.songs).getD []).length ∧
    (∀ t cs, (t, SEvent.generateCard cs) ∈ (handleStartGame rng newGid sockets theme s).2 →
      cs.card1.length = min 25 ((theme.bind Theme.songs).getD []).length ∧
      cs.card2.length = min 25 ((theme.bind Theme.songs).getD []).length) ∧
    goodLen (handleStartGame rng newGid sockets theme s).1 ∧
    (goodLen s →
      goodLen (handleJoin rng sid payload s).1 ∧
      (∀ t cs, (t, SEvent.generateCard cs) ∈ (handleJoin rng sid payload s).2 →
        cs.card1.length = min 25 s.callList.length ∧
        cs.card2.length = min 25 s.callList.length)) ∧
    (goodLen s →
      goodLen (handleRequestCards rng sid mn s).1 ∧
      (∀ t cs, (t, SEvent.generateCard cs) ∈ (handleRequestCards rng sid mn s).2 →
        cs.card1.length = min 25 s.callList.length ∧
        cs.card2.length = min 25 s.callList.length)) := by
  refine ⟨drawCard_length r pool, ?_, ?_, ?_, ?_, ?_⟩
  · simp only [handleStartGame]
    exact shuffle_length _ _
  · intro t cs hmem
    simp only [handleStartGame] at hmem
    rcases List.mem_append.mp hmem with h1 | h1
    · simp at h1
    · obtain ⟨j, hj⟩ := startGameLoop_out_shape rng _ s.activePlayers sockets 0 [] t cs h1
      rw [hj]
      constructor <;> simp [List.length_take, shuffle_length]
  · intro gid pname cs hact hlook
    have hmap : (handleStartGame rng newGid sockets theme s).1.playerCardsByGame =
        [(newGid, (startGameLoop rng ((theme.bind Theme.songs).getD [])
          s.activePlayers sockets 0 []).1)] := rfl
    rw [hmap] at hlook
    by_cases hg : newGid = gid
    · subst hg
      have h2 : alGet (startGameLoop rng ((theme.bind Theme.songs).getD [])
          s.activePlayers sockets 0 []).1 pname = some cs := by
        simpa [lookupCards, alGet] using hlook
      rcases startGameLoop_store rng _ s.activePlayers sockets 0 [] pname cs h2
          with h3 | ⟨_, j, hj⟩
      · simp [alGet] at h3
      · rw [hj]
        have hcl : (handleStartGame rng newGid sockets theme s).1.callList.length =
            ((theme.bind Theme.songs).getD []).length := by
          simp only [handleStartGame]
          exact shuffle_length _ _
        rw [hcl]
        constructor <;> simp [List.length_take, shuffle_length]
    · rw [lookupCards, alGet_cons, if_neg hg] at hlook
      simp [alGet] at hlook
  · intro hg
    by_cases hname : (normalizeJoin payload).1 = ""
    · have he : handleJoin rng sid payload s =
          (s, [(Target.only sid, SEvent.joinFailed "Invalid name")]) := by
        simp [handleJoin, hname]
      rw [he]
      exact ⟨hg, by intro t cs hmem; simp at hmem⟩
    · cases hact : activeGame s with
      | none =>
        rw [handleJoin_noGame rng sid payload s hname hact]
        exact ⟨goodLen_setRoster _ hg,
          fun t cs hmem => absurd hmem (joinPreOut_no_card s sid payload t cs)⟩
      | some gid =>
        rw [handleJoin_active rng sid payload s gid hname hact]
        obtain ⟨hpres, hout⟩ := goodLen_provideCards rng sid (joinFinalName s sid payload) gid
          { s with activePlayers := joinRoster2 s sid payload } hact
          (goodLen_setRoster _ hg)
        refine ⟨hpres, ?_⟩
        intro t cs hmem
        rcases List.mem_append.mp hmem with h1 | h1
        · exact absurd h1 (joinPreOut_no_card s sid payload t cs)
        · exact hout t cs h1
  · intro hg
    cases hact : activeGame s with
    | none =>
      have he : handleRequestCards rng sid mn s = (s, []) := by
        simp [handleRequestCards, hact]
      rw [he]
      exact ⟨hg, by intro t cs hmem; simp at hmem⟩
    | some gid =>
      cases hn : requestName s sid mn with
      | none =>
        have he : handleRequestCards rng sid mn s = (s, []) := by
          simp [handleRequestCards, hact, hn]
        rw [he]
        exact ⟨hg, by intro t cs hmem; simp at hmem⟩
      | some pname =>
        by_cases hp : pname = ""
        · have he : handleRequestCards rng sid mn s = (s, []) := by
            simp [handleRequestCards, hact, hn, hp]
          rw [he]
          exact ⟨hg, by intro t cs hmem; simp at hmem⟩
        · rw [handleRequestCards_eq_provide rng sid mn s gid pname hact hn hp]
          exact goodLen_provideCards rng sid pname gid s hact hg

/-- C8 witness: a concrete short-pool draw has pool-many entries, the
concrete game satisfies the size invariant, a further join preserves it,
and Alice's stored cards have exactly `min 25 3 = 3` entries each. -/
theorem C8_witness :
    (drawCard (rng0 0) ["A", "B", "C"]).length = min 25 3 ∧
    goodLen wGame ∧
    goodLen (handleJoin rng0 "s9" (JoinPayload.strPayload "Eve") wGame).1 ∧
    wCS.card1.length = 3 ∧ wCS.card2.length = 3 := by
  have h1 := C8_card_sizes rng0 (rng0 0) ["A", "B", "C"] "game_1" ["s1"] wTheme wJoined
    "s9" (JoinPayload.strPayload "Eve") none
  have h2 := C8_card_sizes rng0 (rng0 0) ["A", "B", "C"] "game_1" ["s1"] wTheme wGame
    "s9" (JoinPayload.strPayload "Eve") none
  exact ⟨h1.1, h1.2.2.2.1, (h2.2.2.2.2.1 h1.2.2.2.1).1, by decide, by decide⟩

end CyphaBingo
